import Mathlib

/-!
# Helium: the AST model and its diagnostic printer (`src/src/main.c`)

`main.c` holds two printers, `print_expression` and `print_statement`, and the
driver `main`. The printers write to standard output with `printf`; here a call
returns the text it writes, or `none` when the C code runs into undefined
behaviour (a read through a null pointer, a null pointer handed to `%s`, a read
past the end of an array).

The node types live in `helium.h`, which is not part of the sources at hand;
they are reconstructed from the field accesses in `main.c` and from the data
model of the specification.
-/

namespace Helium

/-! ## Data model -/

/-- Modelled from the spec: the `Token` struct of `helium.h`, "kind, literal text,
line number, column number". `main.c` reads `literal` (a `char*`, compared with
`NULL` in `main`), `line_number` and `column_number`. -/
structure Token where
  token_type : Nat
  literal : Option String
  line_number : Int
  column_number : Int
deriving DecidableEq

/-- Modelled from the spec: the `Expression` node of `helium.h`, a common base
carrying the tag `expr_type`, downcast by `print_expression` to one struct per
tag. A constructor stands for a tag together with the struct it selects; child
pointers are `Option`, `none` being `NULL`. `unknownExpr` is a node whose tag is
none of the seven enumerators: `raw` is the tag and `node` is whatever the
memory behind the pointer holds. -/
inductive Expression where
  | identifierExpr (identifier_token : Token)
  | integerLiteral (integer_token : Token)
  | floatingLiteral (float_token : Token)
  | stringLiteral (string_token : Token)
  | infixExpr (left : Option Expression) (operator_token : Token) (right : Option Expression)
  | prefixExpr (prefix_operator_token : Token) (right : Option Expression)
  | postfixExpr (left : Option Expression) (postfix_operator_token : Token)
  | unknownExpr (raw : Nat) (node : Option Expression)

/-- Modelled from the spec: `IdentifierExpression` of `helium.h`, embedded by
value in a `LetStatement` (`letStmt->identifier.identifier_token.literal`). -/
structure IdentifierExpression where
  identifier_token : Token

/-- Modelled from the spec: `PrintStatement` of `helium.h`, "one value to print"
and "a link to the next value". `right` is the next link, `none` at the end of
the chain. -/
inductive PrintStatement where
  | mk (left : Option Expression) (right : Option PrintStatement)

/-- Modelled from the spec: the `Statement` node of `helium.h`, a common base
carrying the tag `stmt_type`. `ifBlock` is the array of statement pointers of an
`IfStatement` and `ifBlockCount` the `int` stored next to it. `unknownStmt` is a
node whose tag is none of the six enumerators. -/
inductive Statement where
  | letStmt (identifier : IdentifierExpression) (data_type : Token) (value : Option Expression)
  | assignStmt (identifier_token : Token) (value : Option Expression)
  | returnStmt (returnValue : Option Expression)
  | expressionStmt (expr : Option Expression)
  | ifStmt (condition : Option Expression) (ifBlock : List (Option Statement)) (ifBlockCount : Int)
  | printStmt (p : PrintStatement)
  | unknownStmt (raw : Nat) (node : Option Statement)

/-! ## `printf` conversions -/

/-- The `%s` conversion: the text of the string; a null argument is undefined
behaviour. -/
def fmt_s (s : Option String) : Option String := s

/-- The `%d` conversion of an `int`. -/
def fmt_d (n : Int) : String := toString n

/-! ## `print_expression` (main.c:3-59) -/

mutual

/-- The `switch (expr->expr_type)` of main.c:9-58, entered with a non-null
`expr`. -/
def print_expression_switch : Expression → Option String
  | .identifierExpr idExpr => do
      let lit ← fmt_s idExpr.literal
      pure ("Identifier: " ++ lit ++ "\n")
  | .integerLiteral intLiteral => do
      let lit ← fmt_s intLiteral.literal
      pure ("Integer Literal: " ++ lit ++ "\n")
  | .floatingLiteral floatLiteral => do
      let lit ← fmt_s floatLiteral.literal
      pure ("Floating Literal: " ++ lit ++ "\n")
  | .stringLiteral stringLiteral => do
      let lit ← fmt_s stringLiteral.literal
      pure ("String literal: " ++ lit ++ "\n")
  | .infixExpr left operator_token right => do
      let l ← print_expression left
      let op ← fmt_s operator_token.literal
      let r ← print_expression right
      pure ("Infix Expression: (" ++ l ++ (" " ++ op ++ " ") ++ r ++ ")")
  | .prefixExpr prefix_operator_token right => do
      let op ← fmt_s prefix_operator_token.literal
      let r ← print_expression right
      pure ("Prefix Expression: " ++ (op ++ "(\n\t") ++ r ++ ")")
  | .postfixExpr left postfix_operator_token => do
      let l ← print_expression left
      let op ← fmt_s postfix_operator_token.literal
      pure ("Postfix Expression: " ++ "( " ++ l ++ (")" ++ op))
  | .unknownExpr _ _ => some "Unknown Expression Type\n"
termination_by structural e => e

/-- The text written by `print_expression(expr)`: the null check of main.c:4-7,
then the switch. -/
def print_expression : Option Expression → Option String
  | none => some "NULL Expression\n"
  | some expr => print_expression_switch expr
termination_by structural e => e

end

/-! ## `print_statement` (main.c:61-137) -/

/-- The text written for the `left` of one link of a Print chain (main.c:112-117
for the head, main.c:122-127 inside the loop): the rendering of `left`, or a
marker when `left` is `NULL`. -/
def print_link_left : Option Expression → Option String
  | some left => print_expression (some left)
  | none => some "Left expression is NULL\n"

mutual

/-- One turn of the `while` loop of main.c:120-129 at a non-null
`currentPrintStmt`, and the turns after it. -/
def print_chain_link : PrintStatement → Option String
  | .mk left right => do
      let l ← print_link_left left
      let rest ← print_chain_loop right
      pure (" -> " ++ l ++ rest)
termination_by structural p => p

/-- The `while (currentPrintStmt != NULL)` loop of main.c:120-129, started at
`currentPrintStmt`. -/
def print_chain_loop : Option PrintStatement → Option String
  | none => some ""
  | some currentPrintStmt => print_chain_link currentPrintStmt
termination_by structural p => p

end

mutual

/-- The `switch (stmt->stmt_type)` of main.c:62-136. -/
def print_statement_switch : Statement → Option String
  | .letStmt identifier data_type value => do
      let id ← fmt_s identifier.identifier_token.literal
      let ty ← fmt_s data_type.literal
      match value with
      | some v => do
          let r ← print_expression (some v)
          pure ("Let Statement: " ++ id ++ "\n" ++ ("Data type: " ++ ty ++ "\n") ++ "  Value: " ++ r)
      | none =>
          pure ("Let Statement: " ++ id ++ "\n" ++ ("Data type: " ++ ty ++ "\n") ++ "  Uninitialized\n")
  | .assignStmt identifier_token value => do
      let id ← fmt_s identifier_token.literal
      let r ← print_expression value
      pure ("Assignment Statement: " ++ id ++ " = " ++ r)
  | .returnStmt returnValue => do
      let r ← print_expression returnValue
      pure ("Return Statement: " ++ r)
  | .expressionStmt expr => do
      let r ← print_expression expr
      pure ("Expression Statement: " ++ r ++ "\n")
  | .ifStmt condition ifBlock ifBlockCount => do
      let c ← print_expression condition
      let body ← print_if_block ifBlockCount 0 ifBlock
      pure ("If Statement:\n" ++ "  Condition: " ++ c ++ "\n  If Block:\n" ++ body)
  | .printStmt (.mk left right) => do
      let l ← print_link_left left
      let rest ← print_chain_loop right
      pure ("Print Statement: (\n" ++ l ++ rest ++ "\n)\n")
  | .unknownStmt _ _ => some "Unknown Statement Type\n"
termination_by structural s => s

/-- The text written by `print_statement(stmt)`. The function has no null
check: it reads `stmt->stmt_type` first (main.c:62), so a null `stmt` is a read
through a null pointer. -/
def print_statement : Option Statement → Option String
  | none => none
  | some stmt => print_statement_switch stmt
termination_by structural s => s

/-- The `for (int i = 0; i < ifStmt->ifBlockCount; i++)` loop of main.c:101-105
from index `i` on; the list is `ifBlock` from entry `i` on, so an empty list with
`i < ifBlockCount` is a read past the end of the array. The `int` values are
integers here: `i + 1` is at most `ifBlockCount`, so it does not overflow. -/
def print_if_block (ifBlockCount : Int) (i : Nat) : List (Option Statement) → Option String
  | [] => if (i : Int) < ifBlockCount then none else some ""
  | s :: rest =>
      if (i : Int) < ifBlockCount then do
        let r ← print_statement s
        let more ← print_if_block ifBlockCount (i + 1) rest
        pure ("    Statement " ++ fmt_d ((i : Int) + 1) ++ ":\n" ++ r ++ "\n" ++ more)
      else some ""
termination_by structural l => l

end

/-! ## The parser output of `main` (main.c:193-204) -/

/-- Modelled from the spec: `Program` of `helium.h`, the array `stmts` of
statement pointers and the `int` `stmtsCount` stored next to it. -/
structure Program where
  stmts : List (Option Statement)
  stmtsCount : Int

/-- The `for (int i = 0; i < program->stmtsCount; i++)` loop of main.c:199-203
from index `i` on; the list is `stmts` from entry `i` on, so an empty list with
`i < stmtsCount` is a read past the end of the array. -/
def print_program_loop (stmtsCount : Int) (i : Nat) : List (Option Statement) → Option String
  | [] => if (i : Int) < stmtsCount then none else some ""
  | s :: rest =>
      if (i : Int) < stmtsCount then do
        let r ← print_statement s
        let more ← print_program_loop stmtsCount (i + 1) rest
        pure ("Statement " ++ fmt_d ((i : Int) + 1) ++ ":\n" ++ r ++ "\n" ++ more)
      else some ""

/-- The text written by main.c:193-204 for the `program` returned by
`parseProgram`. -/
def print_parser_output : Option Program → Option String
  | none => some ("\nParser output:\n" ++ "Parse program function returned nothing - NULL\n")
  | some program => do
      let body ← print_program_loop program.stmtsCount 0 program.stmts
      pure ("\nParser output:\n" ++
        ("Program statements' count " ++ fmt_d program.stmtsCount ++ "\n") ++ body)

/-! ## Print chains as lists -/

mutual

/-- The `left` fields of the links of a Print chain, head first. -/
def PrintStatement.lefts : PrintStatement → List (Option Expression)
  | .mk left right => left :: chain_lefts right
termination_by structural p => p

/-- The `left` fields of the links from `currentPrintStmt` on; none when it is
`NULL`. -/
def chain_lefts : Option PrintStatement → List (Option Expression)
  | none => []
  | some currentPrintStmt => currentPrintStmt.lefts
termination_by structural p => p

end

/-- The numbered block of the statement at 0-based position `ir.1` whose
rendering is `ir.2`, with the indentation `indent` in front of the word
"Statement". -/
def numbered_block (indent : String) (ir : Nat × String) : String :=
  indent ++ "Statement " ++ toString (ir.1 + 1) ++ ":\n" ++ ir.2 ++ "\n"

/-! ## Expression child slots

The positions at which an Expression child hangs below an Assignment, Return,
ExpressionStatement or If statement or below an Infix, Prefix or Postfix
expression, at any depth of a tree. A slot is written as the tree around it;
`fill` puts a child (or `none`, the null pointer) into the slot. -/

/-- An expression tree around one slot: the slot is a child of an Infix, Prefix
or Postfix expression, which is the root or lies below other such nodes. -/
inductive ExprSlot where
  | infixLeft (operator_token : Token) (right : Option Expression)
  | infixRight (left : Option Expression) (operator_token : Token)
  | prefixRight (prefix_operator_token : Token)
  | postfixLeft (postfix_operator_token : Token)
  | inInfixLeft (inner : ExprSlot) (operator_token : Token) (right : Option Expression)
  | inInfixRight (left : Option Expression) (operator_token : Token) (inner : ExprSlot)
  | inPrefixRight (prefix_operator_token : Token) (inner : ExprSlot)
  | inPostfixLeft (inner : ExprSlot) (postfix_operator_token : Token)

/-- The expression with `e` in the slot. -/
def ExprSlot.fill : ExprSlot → Option Expression → Expression
  | .infixLeft operator_token right, e => .infixExpr e operator_token right
  | .infixRight left operator_token, e => .infixExpr left operator_token e
  | .prefixRight prefix_operator_token, e => .prefixExpr prefix_operator_token e
  | .postfixLeft postfix_operator_token, e => .postfixExpr e postfix_operator_token
  | .inInfixLeft inner operator_token right, e =>
      .infixExpr (some (inner.fill e)) operator_token right
  | .inInfixRight left operator_token inner, e =>
      .infixExpr left operator_token (some (inner.fill e))
  | .inPrefixRight prefix_operator_token inner, e =>
      .prefixExpr prefix_operator_token (some (inner.fill e))
  | .inPostfixLeft inner postfix_operator_token, e =>
      .postfixExpr (some (inner.fill e)) postfix_operator_token

/-- A Print chain around one slot, which lies inside the `left` expression of
one of the links. -/
inductive ChainSlot where
  | here (inner : ExprSlot) (right : Option PrintStatement)
  | later (left : Option Expression) (next : ChainSlot)

/-- The chain with `e` in the slot. -/
def ChainSlot.fill : ChainSlot → Option Expression → PrintStatement
  | .here inner right, e => .mk (some (inner.fill e)) right
  | .later left next, e => .mk left (some (next.fill e))

/-- A statement tree around one slot: the slot is the value of an Assignment,
the value of a Return, the expression of an ExpressionStatement or the condition
of an If, or a slot of an expression below a statement; the statement is the root
or an entry of the body of an If (`before` and `after` being the entries around
it). -/
inductive StmtSlot where
  | assignValue (identifier_token : Token)
  | returnValue
  | expressionExpr
  | ifCondition (ifBlock : List (Option Statement)) (ifBlockCount : Int)
  | inLetValue (identifier : IdentifierExpression) (data_type : Token) (inner : ExprSlot)
  | inAssignValue (identifier_token : Token) (inner : ExprSlot)
  | inReturnValue (inner : ExprSlot)
  | inExpressionExpr (inner : ExprSlot)
  | inIfCondition (inner : ExprSlot) (ifBlock : List (Option Statement)) (ifBlockCount : Int)
  | inIfBlock (condition : Option Expression) (before : List (Option Statement))
      (inner : StmtSlot) (after : List (Option Statement)) (ifBlockCount : Int)
  | inPrint (inner : ChainSlot)

/-- The statement with `e` in the slot. -/
def StmtSlot.fill : StmtSlot → Option Expression → Statement
  | .assignValue identifier_token, e => .assignStmt identifier_token e
  | .returnValue, e => .returnStmt e
  | .expressionExpr, e => .expressionStmt e
  | .ifCondition ifBlock ifBlockCount, e => .ifStmt e ifBlock ifBlockCount
  | .inLetValue identifier data_type inner, e =>
      .letStmt identifier data_type (some (inner.fill e))
  | .inAssignValue identifier_token inner, e => .assignStmt identifier_token (some (inner.fill e))
  | .inReturnValue inner, e => .returnStmt (some (inner.fill e))
  | .inExpressionExpr inner, e => .expressionStmt (some (inner.fill e))
  | .inIfCondition inner ifBlock ifBlockCount, e =>
      .ifStmt (some (inner.fill e)) ifBlock ifBlockCount
  | .inIfBlock condition before inner after ifBlockCount, e =>
      .ifStmt condition (before ++ some (inner.fill e) :: after) ifBlockCount
  | .inPrint inner, e => .printStmt (inner.fill e)

/-- The loops on the way to the slot reach it: at every If whose body holds the
slot, the index of the entry holding it is below `ifBlockCount`. -/
def StmtSlot.Visited : StmtSlot → Prop
  | .inIfBlock _ before inner _ ifBlockCount =>
      (before.length : Int) < ifBlockCount ∧ inner.Visited
  | _ => True

/-- The text written is a fixed frame around the rendering of the expression
`e`: `pre`, the rendering, `post`. -/
def Framed (f : Option Expression → Option String) : Prop :=
  ∃ pre post : String, ∀ (e : Option Expression) (r : String),
    print_expression e = some r → f e = some (pre ++ r ++ post)

/-! ## The token dump of `main` (main.c:168-188) -/

/-- The text written by `n` turns of the loop `printf("-")` (main.c:171-172 and
main.c:185-186, with `n = 50`). -/
def print_dashes : Nat → String
  | 0 => ""
  | n + 1 => "-" ++ print_dashes n

/-- The `%-Ns` conversion with `N = width`: the text of the string, then spaces
up to `width` bytes; a longer text is written whole. A null argument is
undefined behaviour. -/
def fmt_s_left (width : Nat) (s : Option String) : Option String :=
  s.map fun text => text ++ String.mk (List.replicate (width - text.utf8ByteSize) ' ')

/-- The `for (int i = 0; i < tokensCount; i++)` loop of main.c:174-184 from index
`i` on; the list is `tokensArray` from entry `i` on. `getTokenTypeName` is defined
outside `main.c` and is a parameter; its result goes to `%-30s`. -/
def print_tokens_loop (getTokenTypeName : Token → Option String) (tokensCount : Int) (i : Nat) :
    List Token → Option String
  | [] => if (i : Int) < tokensCount then none else some ""
  | tok :: rest =>
      if (i : Int) < tokensCount then
        match tok.literal with
        | none => do
            let more ← print_tokens_loop getTokenTypeName tokensCount (i + 1) rest
            pure ("Token " ++ fmt_d (i : Int) ++ " has a NULL literal\n" ++ more)
        | some literal => do
            let name ← fmt_s_left 30 (getTokenTypeName tok)
            let lit ← fmt_s_left 20 (some literal)
            let more ← print_tokens_loop getTokenTypeName tokensCount (i + 1) rest
            pure ("Token Type: " ++ name ++ " | Literal: " ++ lit ++ " | Line : " ++
              fmt_d tok.line_number ++ "   Column : " ++ fmt_d tok.column_number ++ "\n" ++ more)
      else some ""

/-- The text written by main.c:171-188 for the tokens returned by `getAllTokens`. -/
def print_token_dump (getTokenTypeName : Token → Option String) (tokensArray : List Token)
    (tokensCount : Int) : Option String := do
  let body ← print_tokens_loop getTokenTypeName tokensCount 0 tokensArray
  pure (print_dashes 50 ++ "\n" ++ body ++ (print_dashes 50 ++ "\n") ++ "Ended lexer output\n")

/-- A text left-justified in a field of `width` bytes: the text, then spaces up
to the width. -/
def left_justified (width : Nat) (text : String) : String :=
  text ++ String.mk (List.replicate (width - text.utf8ByteSize) ' ')

/-- The line of the token dump for the token `tok` at 0-based index `i`, the
name of its type being `typeName tok`. -/
def token_line (typeName : Token → String) (it : Nat × Token) : String :=
  match it.2.literal with
  | none => "Token " ++ toString it.1 ++ " has a NULL literal\n"
  | some literal =>
      "Token Type: " ++ left_justified 30 (typeName it.2) ++ " | Literal: " ++
        left_justified 20 literal ++ " | Line : " ++ toString it.2.line_number ++
        "   Column : " ++ toString it.2.column_number ++ "\n"

/-! ## Recursion depth

The printers call each other recursively; the loops over a Print chain, over the
body of an If and over the statements of a Program are not calls.
`print_expression_frames` and `print_statement_frames` count, for one call, the
largest number of calls of the two printers that are active at the same time,
the call itself included (for a run that faults, the calls up to the fault are
among those counted). -/

mutual

/-- The calls active below and including a call of `print_expression` on a
non-null `expr`: the recursive calls are those of main.c:33, 35, 43 and 51. -/
def print_expression_switch_frames : Expression → Nat
  | .identifierExpr _ => 1
  | .integerLiteral _ => 1
  | .floatingLiteral _ => 1
  | .stringLiteral _ => 1
  | .infixExpr left _ right =>
      1 + max (print_expression_frames left) (print_expression_frames right)
  | .prefixExpr _ right => 1 + print_expression_frames right
  | .postfixExpr left _ => 1 + print_expression_frames left
  | .unknownExpr _ _ => 1
termination_by structural e => e

/-- The calls active below and including the call `print_expression(expr)`. -/
def print_expression_frames : Option Expression → Nat
  | none => 1
  | some expr => print_expression_switch_frames expr
termination_by structural e => e

end

/-- The calls made for the `left` of one link of a Print chain: a call of
`print_expression` when `left` is not null (main.c:113, main.c:123), none
otherwise. -/
def print_link_left_frames : Option Expression → Nat
  | some left => print_expression_frames (some left)
  | none => 0

mutual

/-- The calls active at the same time during the turns of the `while` loop of
main.c:120-129 from a non-null `currentPrintStmt` on: the loop moves to the next
link by an assignment (main.c:128), not by a call. -/
def print_chain_link_frames : PrintStatement → Nat
  | .mk left right => max (print_link_left_frames left) (print_chain_loop_frames right)
termination_by structural p => p

/-- The calls active at the same time during the `while` loop of main.c:120-129
started at `currentPrintStmt`. -/
def print_chain_loop_frames : Option PrintStatement → Nat
  | none => 0
  | some currentPrintStmt => print_chain_link_frames currentPrintStmt
termination_by structural p => p

end

mutual

/-- The calls active below and including a call of `print_statement` on a
non-null `stmt`. -/
def print_statement_switch_frames : Statement → Nat
  | .letStmt _ _ value =>
      match value with
      | some v => 1 + print_expression_frames (some v)
      | none => 1
  | .assignStmt _ value => 1 + print_expression_frames value
  | .returnStmt returnValue => 1 + print_expression_frames returnValue
  | .expressionStmt expr => 1 + print_expression_frames expr
  | .ifStmt condition ifBlock ifBlockCount =>
      1 + max (print_expression_frames condition) (print_if_block_frames ifBlockCount 0 ifBlock)
  | .printStmt (.mk left right) =>
      1 + max (print_link_left_frames left) (print_chain_loop_frames right)
  | .unknownStmt _ _ => 1
termination_by structural s => s

/-- The calls active below and including the call `print_statement(stmt)`. -/
def print_statement_frames : Option Statement → Nat
  | none => 1
  | some stmt => print_statement_switch_frames stmt
termination_by structural s => s

/-- The calls active at the same time during the loop of main.c:101-105 from
index `i` on: one call of `print_statement` per turn (main.c:103). -/
def print_if_block_frames (ifBlockCount : Int) (i : Nat) : List (Option Statement) → Nat
  | [] => 0
  | s :: rest =>
      if (i : Int) < ifBlockCount then
        max (print_statement_frames s) (print_if_block_frames ifBlockCount (i + 1) rest)
      else 0
termination_by structural l => l

end

/-- The calls active at the same time during the loop of main.c:199-203 from
index `i` on: one call of `print_statement` per turn (main.c:201). -/
def print_program_loop_frames (stmtsCount : Int) (i : Nat) : List (Option Statement) → Nat
  | [] => 0
  | s :: rest =>
      if (i : Int) < stmtsCount then
        max (print_statement_frames s) (print_program_loop_frames stmtsCount (i + 1) rest)
      else 0

/-- The largest number of calls of the printers active at the same time while
main.c:193-204 runs. -/
def print_parser_output_frames : Option Program → Nat
  | none => 0
  | some program => print_program_loop_frames program.stmtsCount 0 program.stmts

/-! ## Nesting depth

The nesting depth of a tree: no levels for an absent node, one level for a node
without children, one level more than its deepest child otherwise. The links of
a Print chain are counted as lying side by side, at one level. -/

mutual

/-- The nesting depth of an expression. -/
def Expression.nesting : Expression → Nat
  | .identifierExpr _ => 1
  | .integerLiteral _ => 1
  | .floatingLiteral _ => 1
  | .stringLiteral _ => 1
  | .infixExpr left _ right => 1 + max (expression_nesting left) (expression_nesting right)
  | .prefixExpr _ right => 1 + expression_nesting right
  | .postfixExpr left _ => 1 + expression_nesting left
  | .unknownExpr _ _ => 1
termination_by structural e => e

/-- The nesting depth below an expression pointer. -/
def expression_nesting : Option Expression → Nat
  | none => 0
  | some expr => expr.nesting
termination_by structural e => e

end

mutual

/-- The deepest `left` expression of the links of a Print chain. -/
def PrintStatement.nesting : PrintStatement → Nat
  | .mk left right => max (expression_nesting left) (chain_nesting right)
termination_by structural p => p

/-- The deepest `left` expression of the links from `currentPrintStmt` on. -/
def chain_nesting : Option PrintStatement → Nat
  | none => 0
  | some currentPrintStmt => currentPrintStmt.nesting
termination_by structural p => p

end

mutual

/-- The nesting depth of a statement. -/
def Statement.nesting : Statement → Nat
  | .letStmt _ _ value => 1 + expression_nesting value
  | .assignStmt _ value => 1 + expression_nesting value
  | .returnStmt returnValue => 1 + expression_nesting returnValue
  | .expressionStmt expr => 1 + expression_nesting expr
  | .ifStmt condition ifBlock _ => 1 + max (expression_nesting condition) (block_nesting ifBlock)
  | .printStmt p => 1 + p.nesting
  | .unknownStmt _ _ => 1
termination_by structural s => s

/-- The nesting depth below a statement pointer. -/
def statement_nesting : Option Statement → Nat
  | none => 0
  | some stmt => stmt.nesting
termination_by structural s => s

/-- The deepest statement of a list of statements. -/
def block_nesting : List (Option Statement) → Nat
  | [] => 0
  | s :: rest => max (statement_nesting s) (block_nesting rest)
termination_by structural l => l

end

/-- The nesting depth of a Program: the Program node and, below it, its
statements. -/
def Program.nesting (program : Program) : Nat :=
  1 + block_nesting program.stmts

/-! ## Trees the printers can walk

The conditions on a tree under which no step of the traversal is undefined:
every token whose literal is written has one, no entry of a statement array that
a loop reaches is null, and no loop runs past the end of its array. Absent
Expression children and unknown tags are allowed. -/

mutual

/-- Every literal that `print_expression` writes for the expression is present. -/
def Expression.printable : Expression → Prop
  | .identifierExpr t => t.literal ≠ none
  | .integerLiteral t => t.literal ≠ none
  | .floatingLiteral t => t.literal ≠ none
  | .stringLiteral t => t.literal ≠ none
  | .infixExpr left op right =>
      expression_printable left ∧ op.literal ≠ none ∧ expression_printable right
  | .prefixExpr op right => op.literal ≠ none ∧ expression_printable right
  | .postfixExpr left op => expression_printable left ∧ op.literal ≠ none
  | .unknownExpr _ _ => True
termination_by structural e => e

/-- The expression behind the pointer is printable; a null pointer is. -/
def expression_printable : Option Expression → Prop
  | none => True
  | some expr => expr.printable
termination_by structural e => e

end

mutual

/-- The `left` expressions of the chain are printable. -/
def PrintStatement.printable : PrintStatement → Prop
  | .mk left right => expression_printable left ∧ chain_printable right
termination_by structural p => p

/-- The `left` expressions of the links from `currentPrintStmt` on are
printable. -/
def chain_printable : Option PrintStatement → Prop
  | none => True
  | some currentPrintStmt => currentPrintStmt.printable
termination_by structural p => p

end

mutual

/-- Nothing that `print_statement` does for the statement is undefined. -/
def Statement.printable : Statement → Prop
  | .letStmt identifier data_type value =>
      identifier.identifier_token.literal ≠ none ∧ data_type.literal ≠ none ∧
        expression_printable value
  | .assignStmt identifier_token value =>
      identifier_token.literal ≠ none ∧ expression_printable value
  | .returnStmt returnValue => expression_printable returnValue
  | .expressionStmt expr => expression_printable expr
  | .ifStmt condition ifBlock ifBlockCount =>
      expression_printable condition ∧ block_printable ifBlockCount 0 ifBlock
  | .printStmt p => p.printable
  | .unknownStmt _ _ => True
termination_by structural s => s

/-- The statement pointer is not null and its statement is printable. -/
def statement_printable : Option Statement → Prop
  | none => False
  | some stmt => stmt.printable
termination_by structural s => s

/-- The entries of a statement array from index `i` on that a loop with bound
`count` reaches exist and are printable. -/
def block_printable (count : Int) (i : Nat) : List (Option Statement) → Prop
  | [] => count ≤ (i : Int)
  | s :: rest =>
      (i : Int) < count → statement_printable s ∧ block_printable count (i + 1) rest
termination_by structural l => l

end

/-! ## Leaf expressions -/

/-- The four leaf kinds of the `switch` of `print_expression` (main.c:10-29). -/
inductive LeafKind where
  | identifier
  | integer
  | floating
  | string
deriving DecidableEq

/-- The leaf expression of kind `k` carrying the token `t`. -/
def LeafKind.node : LeafKind → Token → Expression
  | .identifier, t => .identifierExpr t
  | .integer, t => .integerLiteral t
  | .floating, t => .floatingLiteral t
  | .string, t => .stringLiteral t

/-! ## Unfolding lemmas -/

theorem print_expression_some (expr : Expression) :
    print_expression (some expr) = print_expression_switch expr := rfl

theorem print_statement_some (stmt : Statement) :
    print_statement (some stmt) = print_statement_switch stmt := rfl

theorem print_link_left_some (left : Expression) :
    print_link_left (some left) = print_expression (some left) := rfl

/-! ## Absent and unknown nodes -/

/-- C3: `print_expression(NULL)` writes the one line "NULL Expression\n" and
nothing else; the result does not go through the switch, so no child is
visited. -/
theorem print_expression_null_line :
    print_expression none = some "NULL Expression\n" := rfl

/-- C10: an Expression whose tag is none of the seven enumerators is rendered as
the one line "Unknown Expression Type\n", and a Statement whose tag is none of
the six enumerators as the one line "Unknown Statement Type\n", whatever the tag
value and whatever the node holds (nothing of the node is read, so nothing in it
can make the call fault). -/
theorem unknown_tag_line :
    (∀ (raw : Nat) (node : Option Expression),
        print_expression (some (.unknownExpr raw node)) = some "Unknown Expression Type\n") ∧
    (∀ (raw : Nat) (node : Option Statement),
        print_statement (some (.unknownStmt raw node)) = some "Unknown Statement Type\n") :=
  ⟨fun _ _ => rfl, fun _ _ => rfl⟩

/-- C2 (the code at the failing inputs): `print_statement(NULL)` writes no
marker: it reads `stmt->stmt_type` through the null pointer, where
`print_expression(NULL)` writes its marker line. The same read happens for a
null entry of an If body and for a null entry of the Program's statement
list. -/
theorem print_statement_null_faults :
    print_statement none = none ∧
    print_expression none = some "NULL Expression\n" ∧
    (∀ (condition : Option Expression) (rest : List (Option Statement)),
        print_statement (some (.ifStmt condition (none :: rest) 1)) = none) ∧
    (∀ (rest : List (Option Statement)),
        print_parser_output (some ⟨none :: rest, 1⟩) = none) := by
  refine ⟨rfl, rfl, ?_, ?_⟩
  · intro condition rest
    cases hc : print_expression condition <;>
      simp [print_statement, print_statement_switch, print_if_block, hc]
  · intro rest
    simp [print_parser_output, print_program_loop, print_statement]

/-! ## Composite expressions -/

/-- C8: for an Infix expression whose operator literal is `op`, the output is
the open marker "Infix Expression: (", the rendering of `left`, the operator
text " op ", the rendering of `right` and the close marker ")", in this order;
the call faults exactly when the rendering of a child does. -/
theorem infix_render_order (left right : Option Expression) (operator_token : Token)
    (op : String) (hop : operator_token.literal = some op) :
    print_expression (some (.infixExpr left operator_token right)) =
      (print_expression left).bind fun l =>
        (print_expression right).bind fun r =>
          some ("Infix Expression: (" ++ l ++ " " ++ op ++ " " ++ r ++ ")") := by
  cases hl : print_expression left <;> cases hr : print_expression right <;>
    simp [print_expression, print_expression_switch, fmt_s, hop, hl, hr, String.ext_iff,
      String.data_append]

theorem infix_render_order_witness :
    print_expression (some (.infixExpr (some (.identifierExpr ⟨0, some "a", 1, 1⟩))
        ⟨1, some "+", 1, 3⟩ none)) =
      some "Infix Expression: (Identifier: a\n + NULL Expression\n)" :=
  (infix_render_order (some (.identifierExpr ⟨0, some "a", 1, 1⟩)) none ⟨1, some "+", 1, 3⟩
    "+" rfl).trans (by decide)

/-- C9: for a Prefix expression whose operator literal is `op`, the output is
"Prefix Expression: ", the operator text, "(\n\t", the rendering of `right` and
the close marker ")"; for a Postfix expression whose operator literal is `op`,
the output is "Postfix Expression: ( ", the rendering of `left`, the close marker
")" and the operator text. -/
theorem prefix_postfix_render_order (child : Option Expression) (operator_token : Token)
    (op : String) (hop : operator_token.literal = some op) :
    print_expression (some (.prefixExpr operator_token child)) =
        ((print_expression child).bind fun r =>
          some ("Prefix Expression: " ++ op ++ "(\n\t" ++ r ++ ")")) ∧
    print_expression (some (.postfixExpr child operator_token)) =
        ((print_expression child).bind fun l =>
          some ("Postfix Expression: ( " ++ l ++ ")" ++ op)) := by
  constructor <;>
    cases hc : print_expression child <;>
    simp [print_expression, print_expression_switch, fmt_s, hop, hc, String.ext_iff,
      String.data_append]

theorem prefix_postfix_render_order_witness :
    print_expression (some (.prefixExpr ⟨1, some "-", 1, 1⟩
        (some (.integerLiteral ⟨2, some "7", 1, 2⟩)))) =
      some "Prefix Expression: -(\n\tInteger Literal: 7\n)" ∧
    print_expression (some (.postfixExpr (some (.integerLiteral ⟨2, some "7", 1, 2⟩))
        ⟨1, some "-", 1, 1⟩)) =
      some "Postfix Expression: ( Integer Literal: 7\n)-" := by
  have h := prefix_postfix_render_order (some (.integerLiteral ⟨2, some "7", 1, 2⟩))
    ⟨1, some "-", 1, 1⟩ "-" rfl
  exact ⟨h.1.trans (by decide), h.2.trans (by decide)⟩

/-! ## Let statements -/

/-- C5: a Let statement without a value, with identifier literal `id` and
declared-type literal `ty`, is rendered as the identifier line, the type line and
the marker "  Uninitialized\n", and nothing else (so no "  Value: " label). -/
theorem let_uninitialized_render (identifier : IdentifierExpression) (data_type : Token)
    (id ty : String) (hid : identifier.identifier_token.literal = some id)
    (hty : data_type.literal = some ty) :
    print_statement (some (.letStmt identifier data_type none)) =
      some ("Let Statement: " ++ id ++ "\n" ++ "Data type: " ++ ty ++ "\n" ++
        "  Uninitialized\n") := by
  simp [print_statement, print_statement_switch, fmt_s, hid, hty, String.ext_iff,
    String.data_append]

theorem let_uninitialized_render_witness :
    print_statement (some (.letStmt ⟨⟨0, some "x", 1, 5⟩⟩ ⟨3, some "int", 1, 1⟩ none)) =
      some "Let Statement: x\nData type: int\n  Uninitialized\n" :=
  (let_uninitialized_render ⟨⟨0, some "x", 1, 5⟩⟩ ⟨3, some "int", 1, 1⟩ "x" "int" rfl rfl).trans
    (by decide)

/-- C6: a Let statement with a value `v`, with identifier literal `id` and
declared-type literal `ty`, is rendered as the identifier line, the type line,
the label "  Value: " and the rendering of `v`, and nothing else (so no
"  Uninitialized\n" marker from the other branch); the call faults exactly when
the rendering of `v` does. For identifier "x", type "int" and value
IntegerLiteral "5" the output is the three lines "Let Statement: x",
"Data type: int" and "  Value: Integer Literal: 5". -/
theorem let_value_render (identifier : IdentifierExpression) (data_type : Token)
    (v : Expression) (id ty : String)
    (hid : identifier.identifier_token.literal = some id)
    (hty : data_type.literal = some ty) :
    print_statement (some (.letStmt identifier data_type (some v))) =
        ((print_expression (some v)).bind fun r =>
          some ("Let Statement: " ++ id ++ "\n" ++ "Data type: " ++ ty ++ "\n" ++
            "  Value: " ++ r)) ∧
    (∀ (k1 k2 k3 : Nat) (l1 c1 l2 c2 l3 c3 : Int),
      print_statement (some (.letStmt ⟨⟨k1, some "x", l1, c1⟩⟩ ⟨k2, some "int", l2, c2⟩
          (some (.integerLiteral ⟨k3, some "5", l3, c3⟩)))) =
        some "Let Statement: x\nData type: int\n  Value: Integer Literal: 5\n") := by
  constructor
  · cases hv : print_expression (some v) <;>
      simp [print_statement, print_statement_switch, fmt_s, hid, hty, hv, String.ext_iff,
        String.data_append]
  · intros; rfl

theorem let_value_render_witness :
    print_statement (some (.letStmt ⟨⟨0, some "n", 2, 5⟩⟩ ⟨3, some "float", 2, 1⟩
        (some (.floatingLiteral ⟨4, some "1.5", 2, 9⟩)))) =
      some "Let Statement: n\nData type: float\n  Value: Floating Literal: 1.5\n" :=
  ((let_value_render ⟨⟨0, some "n", 2, 5⟩⟩ ⟨3, some "float", 2, 1⟩
      (.floatingLiteral ⟨4, some "1.5", 2, 9⟩) "n" "float" rfl rfl).1).trans (by decide)

/-! ## Print chains -/

theorem fmt_d_natCast (n : Nat) : fmt_d (n : Int) = toString n := rfl

theorem intercalate_go_eq (sep : String) :
    ∀ (rest : List String) (acc : String),
      String.intercalate.go acc sep rest = acc ++ String.join (rest.map fun r => sep ++ r) := by
  intro rest
  induction rest with
  | nil => intro acc; simp [String.intercalate.go, String.ext_iff, String.data_append]
  | cons r rest ih =>
    intro acc
    rw [String.intercalate.go, ih]
    simp [String.ext_iff, String.data_append]

theorem intercalate_cons (sep r0 : String) (rest : List String) :
    String.intercalate sep (r0 :: rest) = r0 ++ String.join (rest.map fun r => sep ++ r) := by
  rw [String.intercalate, intercalate_go_eq]

theorem print_chain_loop_eq :
    ∀ (rs : List String) (current : Option PrintStatement),
      List.Forall₂ (fun left r => print_link_left left = some r) (chain_lefts current) rs →
      print_chain_loop current = some (String.join (rs.map fun r => " -> " ++ r)) := by
  intro rs
  induction rs with
  | nil =>
    intro current h
    cases current with
    | none => rfl
    | some p => cases p with
      | mk left right => simp [chain_lefts, PrintStatement.lefts] at h
  | cons r rest ih =>
    intro current h
    cases current with
    | none => simp [chain_lefts] at h
    | some p => cases p with
      | mk left right =>
        simp only [chain_lefts, PrintStatement.lefts, List.forall₂_cons] at h
        simp [print_chain_loop, print_chain_link, h.1, ih right h.2, String.ext_iff,
          String.data_append]

/-- C1: for a Print chain whose N links (head first) have the renderings `rs`,
where the rendering of a link is `print_expression(left)` when `left` is present
and the marker "Left expression is NULL\n" when it is absent, `rs` has N ≥ 1
entries and `print_statement` on the head writes "Print Statement: (\n", the N
renderings in chain order joined by the separator " -> " (so N-1 separators, one
in front of each link after the head), and "\n)\n". A Print with no `left` and no
next link writes the marker once and no separator. -/
theorem print_chain_render (p : PrintStatement) (rs : List String)
    (h : List.Forall₂ (fun left r => print_link_left left = some r) p.lefts rs) :
    rs.length = p.lefts.length ∧ 1 ≤ rs.length ∧
    print_statement (some (.printStmt p)) =
      some ("Print Statement: (\n" ++ String.intercalate " -> " rs ++ "\n)\n") ∧
    (∀ e : Expression, print_link_left (some e) = print_expression (some e)) ∧
    print_link_left none = some "Left expression is NULL\n" ∧
    print_statement (some (.printStmt (.mk none none))) =
      some "Print Statement: (\nLeft expression is NULL\n\n)\n" := by
  cases p with
  | mk left right =>
    cases rs with
    | nil => simp [PrintStatement.lefts] at h
    | cons r0 rest =>
      have hlen := h.length_eq
      simp only [PrintStatement.lefts, List.forall₂_cons] at h
      refine ⟨hlen.symm, by simp, ?_, fun _ => rfl, rfl, rfl⟩
      rw [intercalate_cons]
      simp [print_statement, print_statement_switch, h.1, print_chain_loop_eq rest right h.2,
        String.ext_iff, String.data_append]

theorem print_chain_render_witness :
    print_statement (some (.printStmt (.mk (some (.identifierExpr ⟨0, some "a", 1, 7⟩))
        (some (.mk none (some (.mk (some (.integerLiteral ⟨2, some "3", 1, 13⟩)) none))))))) =
      some "Print Statement: (\nIdentifier: a\n -> Left expression is NULL\n -> Integer Literal: 3\n\n)\n" :=
  ((print_chain_render
      (.mk (some (.identifierExpr ⟨0, some "a", 1, 7⟩))
        (some (.mk none (some (.mk (some (.integerLiteral ⟨2, some "3", 1, 13⟩)) none)))))
      ["Identifier: a\n", "Left expression is NULL\n", "Integer Literal: 3\n"]
      (.cons rfl (.cons rfl (.cons rfl .nil)))).2.2.1).trans (by decide)

/-! ## If statements -/

theorem print_if_block_eq (ifBlockCount : Int) :
    ∀ (ifBlock : List (Option Statement)) (rs : List String) (i : Nat),
      ifBlockCount = (i : Int) + (ifBlock.length : Int) →
      List.Forall₂ (fun s r => print_statement s = some r) ifBlock rs →
      print_if_block ifBlockCount i ifBlock =
        some (String.join ((rs.enumFrom i).map (numbered_block "    "))) := by
  intro ifBlock
  induction ifBlock with
  | nil =>
    intro rs i hcount h
    cases h
    have hi : ¬ ((i : Int) < ifBlockCount) := by simp at hcount; omega
    simp [print_if_block, hi, String.join]
  | cons s rest ih =>
    intro rs i hcount h
    cases h with
    | cons hs hrest =>
      have hi : (i : Int) < ifBlockCount := by simp at hcount; omega
      have hnext : ifBlockCount = ((i + 1 : Nat) : Int) + (rest.length : Int) := by
        simp at hcount ⊢; omega
      have hd : fmt_d ((i : Int) + 1) = toString (i + 1) := fmt_d_natCast (i + 1)
      simp [print_if_block, hi, hs, ih _ (i + 1) hnext hrest, hd, numbered_block,
        String.ext_iff, String.data_append]

/-- C7: for an If statement whose condition renders as `c` and whose body
`[s_1, ..., s_n]` (with `ifBlockCount = n`) renders entry by entry as `rs`,
`print_statement` writes "If Statement:\n  Condition: ", `c`, "\n  If Block:\n"
and then, in body order, for the statement at position i (counted from 1) the
prefix "    Statement i:\n", its rendering and "\n". A body of two
ExpressionStatements gets the prefixes "Statement 1:" and "Statement 2:" in this
order, and the statements of a nested If body are numbered from 1 again. -/
theorem if_render (condition : Option Expression) (ifBlock : List (Option Statement))
    (c : String) (rs : List String)
    (hc : print_expression condition = some c)
    (hrs : List.Forall₂ (fun s r => print_statement s = some r) ifBlock rs) :
    print_statement (some (.ifStmt condition ifBlock ifBlock.length)) =
      some ("If Statement:\n  Condition: " ++ c ++ "\n  If Block:\n" ++
        String.join (rs.enum.map fun ir =>
          "    Statement " ++ toString (ir.1 + 1) ++ ":\n" ++ ir.2 ++ "\n")) ∧
    (∀ (e1 e2 : Option Expression) (r1 r2 : String),
      print_expression e1 = some r1 → print_expression e2 = some r2 →
      print_statement (some (.ifStmt condition [some (.expressionStmt e1),
          some (.expressionStmt e2)] 2)) =
        some ("If Statement:\n  Condition: " ++ c ++ "\n  If Block:\n" ++
          "    Statement 1:\n" ++ ("Expression Statement: " ++ r1 ++ "\n") ++ "\n" ++
          "    Statement 2:\n" ++ ("Expression Statement: " ++ r2 ++ "\n") ++ "\n")) ∧
    (∀ (inner : Option Expression) (ci : String) (s1 s2 s3 : Option Statement)
        (r1 r2 r3 : String),
      print_expression inner = some ci →
      print_statement s1 = some r1 → print_statement s2 = some r2 →
      print_statement s3 = some r3 →
      print_statement (some (.ifStmt condition [s1, some (.ifStmt inner [s2, s3] 2)] 2)) =
        some ("If Statement:\n  Condition: " ++ c ++ "\n  If Block:\n" ++
          "    Statement 1:\n" ++ r1 ++ "\n" ++
          "    Statement 2:\n" ++
            ("If Statement:\n  Condition: " ++ ci ++ "\n  If Block:\n" ++
              "    Statement 1:\n" ++ r2 ++ "\n" ++
              "    Statement 2:\n" ++ r3 ++ "\n") ++ "\n")) := by
  refine ⟨?_, ?_, ?_⟩
  · have hloop := print_if_block_eq (ifBlock.length : Int) ifBlock rs 0 (by simp) hrs
    have hfun : (fun ir : Nat × String =>
        "    Statement " ++ toString (ir.1 + 1) ++ ":\n" ++ ir.2 ++ "\n") =
        numbered_block "    " := by
      funext ir; simp [numbered_block, String.ext_iff, String.data_append]
    rw [hfun]
    simp [print_statement, print_statement_switch, hc, hloop, List.enum, String.ext_iff,
      String.data_append]
  · intro e1 e2 r1 r2 h1 h2
    have f1 : fmt_d 1 = "1" := rfl
    have f2 : fmt_d 2 = "2" := rfl
    simp [print_statement, print_statement_switch, print_if_block, hc, h1, h2, f1, f2,
      String.ext_iff, String.data_append]
  · intro inner ci s1 s2 s3 r1 r2 r3 hi h1 h2 h3
    have f1 : fmt_d 1 = "1" := rfl
    have f2 : fmt_d 2 = "2" := rfl
    simp [print_statement, print_statement_switch, print_if_block, hc, hi, h1, h2, h3, f1, f2,
      String.ext_iff, String.data_append]

theorem if_render_witness :
    print_statement (some (.ifStmt (some (.identifierExpr ⟨0, some "x", 1, 4⟩))
        [some (.expressionStmt (some (.identifierExpr ⟨0, some "a", 2, 3⟩))),
         some (.expressionStmt none)] 2)) =
      some ("If Statement:\n  Condition: Identifier: x\n\n  If Block:\n" ++
        "    Statement 1:\nExpression Statement: Identifier: a\n\n\n" ++
        "    Statement 2:\nExpression Statement: NULL Expression\n\n\n") :=
  ((if_render (some (.identifierExpr ⟨0, some "x", 1, 4⟩))
      [some (.expressionStmt (some (.identifierExpr ⟨0, some "a", 2, 3⟩))),
       some (.expressionStmt none)]
      "Identifier: x\n"
      ["Expression Statement: Identifier: a\n\n", "Expression Statement: NULL Expression\n\n"]
      rfl (.cons rfl (.cons rfl .nil))).1).trans rfl

/-! ## Absent Expression children -/

theorem expr_slot_framed (c : ExprSlot) :
    ∀ (e0 : Option Expression) (out0 : String),
      print_expression (some (c.fill e0)) = some out0 →
      Framed (fun e => print_expression (some (c.fill e))) := by
  induction c with
  | infixLeft op right =>
    intro e0 out0 h0
    simp [ExprSlot.fill, print_expression, print_expression_switch, fmt_s,
      Option.bind_eq_some] at h0
    obtain ⟨_, _, o, ho, r, hr, _⟩ := h0
    refine ⟨"Infix Expression: (", " " ++ o ++ " " ++ r ++ ")", fun e x hx => ?_⟩
    simp [ExprSlot.fill, print_expression, print_expression_switch, fmt_s, hx, ho, hr,
      String.ext_iff, String.data_append]
  | infixRight left op =>
    intro e0 out0 h0
    simp [ExprSlot.fill, print_expression, print_expression_switch, fmt_s,
      Option.bind_eq_some] at h0
    obtain ⟨l, hl, o, ho, _, _, _⟩ := h0
    refine ⟨"Infix Expression: (" ++ l ++ " " ++ o ++ " ", ")", fun e x hx => ?_⟩
    simp [ExprSlot.fill, print_expression, print_expression_switch, fmt_s, hx, ho, hl,
      String.ext_iff, String.data_append]
  | prefixRight op =>
    intro e0 out0 h0
    simp [ExprSlot.fill, print_expression, print_expression_switch, fmt_s,
      Option.bind_eq_some] at h0
    obtain ⟨o, ho, _, _, _⟩ := h0
    refine ⟨"Prefix Expression: " ++ o ++ "(\n\t", ")", fun e x hx => ?_⟩
    simp [ExprSlot.fill, print_expression, print_expression_switch, fmt_s, hx, ho,
      String.ext_iff, String.data_append]
  | postfixLeft op =>
    intro e0 out0 h0
    simp [ExprSlot.fill, print_expression, print_expression_switch, fmt_s,
      Option.bind_eq_some] at h0
    obtain ⟨_, _, o, ho, _⟩ := h0
    refine ⟨"Postfix Expression: ( ", ")" ++ o, fun e x hx => ?_⟩
    simp [ExprSlot.fill, print_expression, print_expression_switch, fmt_s, hx, ho,
      String.ext_iff, String.data_append]
  | inInfixLeft inner op right ih =>
    intro e0 out0 h0
    simp only [ExprSlot.fill, print_expression_some, print_expression_switch, fmt_s,
      Option.bind_eq_bind, Option.bind_eq_some] at h0
    obtain ⟨l, hl, o, ho, r, hr, _⟩ := h0
    obtain ⟨pre, post, hf⟩ := ih e0 l hl
    refine ⟨"Infix Expression: (" ++ pre, post ++ " " ++ o ++ " " ++ r ++ ")", fun e x hx => ?_⟩
    have hfe := hf e x hx
    simp only [print_expression_some] at hfe
    simp [ExprSlot.fill, print_expression, print_expression_switch, fmt_s, hfe, ho, hr,
      String.ext_iff, String.data_append]
  | inInfixRight left op inner ih =>
    intro e0 out0 h0
    simp only [ExprSlot.fill, print_expression_some, print_expression_switch, fmt_s,
      Option.bind_eq_bind, Option.bind_eq_some] at h0
    obtain ⟨l, hl, o, ho, r, hr, _⟩ := h0
    obtain ⟨pre, post, hf⟩ := ih e0 r hr
    refine ⟨"Infix Expression: (" ++ l ++ " " ++ o ++ " " ++ pre, post ++ ")", fun e x hx => ?_⟩
    have hfe := hf e x hx
    simp only [print_expression_some] at hfe
    simp [ExprSlot.fill, print_expression, print_expression_switch, fmt_s, hfe, ho, hl,
      String.ext_iff, String.data_append]
  | inPrefixRight op inner ih =>
    intro e0 out0 h0
    simp only [ExprSlot.fill, print_expression_some, print_expression_switch, fmt_s,
      Option.bind_eq_bind, Option.bind_eq_some] at h0
    obtain ⟨o, ho, r, hr, _⟩ := h0
    obtain ⟨pre, post, hf⟩ := ih e0 r hr
    refine ⟨"Prefix Expression: " ++ o ++ "(\n\t" ++ pre, post ++ ")", fun e x hx => ?_⟩
    have hfe := hf e x hx
    simp only [print_expression_some] at hfe
    simp [ExprSlot.fill, print_expression, print_expression_switch, fmt_s, hfe, ho,
      String.ext_iff, String.data_append]
  | inPostfixLeft inner op ih =>
    intro e0 out0 h0
    simp only [ExprSlot.fill, print_expression_some, print_expression_switch, fmt_s,
      Option.bind_eq_bind, Option.bind_eq_some] at h0
    obtain ⟨l, hl, o, ho, _⟩ := h0
    obtain ⟨pre, post, hf⟩ := ih e0 l hl
    refine ⟨"Postfix Expression: ( " ++ pre, post ++ ")" ++ o, fun e x hx => ?_⟩
    have hfe := hf e x hx
    simp only [print_expression_some] at hfe
    simp [ExprSlot.fill, print_expression, print_expression_switch, fmt_s, hfe, ho,
      String.ext_iff, String.data_append]

theorem chain_slot_framed (c : ChainSlot) :
    ∀ (e0 : Option Expression) (out0 : String),
      print_chain_link (c.fill e0) = some out0 →
      Framed (fun e => print_chain_link (c.fill e)) := by
  induction c with
  | here inner right =>
    intro e0 out0 h0
    simp only [ChainSlot.fill, print_chain_link, print_link_left_some,
      Option.bind_eq_bind, Option.bind_eq_some] at h0
    obtain ⟨l, hl, rest, hrest, _⟩ := h0
    obtain ⟨pre, post, hf⟩ := expr_slot_framed inner e0 l hl
    refine ⟨" -> " ++ pre, post ++ rest, fun e x hx => ?_⟩
    have hfe := hf e x hx
    simp only at hfe
    simp [ChainSlot.fill, print_chain_link, print_link_left_some, hfe, hrest,
      String.ext_iff, String.data_append]
  | later left next ih =>
    intro e0 out0 h0
    simp only [ChainSlot.fill, print_chain_link, print_chain_loop,
      Option.bind_eq_bind, Option.bind_eq_some] at h0
    obtain ⟨l, hl, rest, hrest, _⟩ := h0
    obtain ⟨pre, post, hf⟩ := ih e0 rest hrest
    refine ⟨" -> " ++ l ++ pre, post, fun e x hx => ?_⟩
    have hfe := hf e x hx
    simp only at hfe
    simp [ChainSlot.fill, print_chain_link, print_chain_loop, hfe, hl,
      String.ext_iff, String.data_append]

theorem print_head_framed (c : ChainSlot) :
    ∀ (e0 : Option Expression) (out0 : String),
      print_statement (some (.printStmt (c.fill e0))) = some out0 →
      Framed (fun e => print_statement (some (.printStmt (c.fill e)))) := by
  cases c with
  | here inner right =>
    intro e0 out0 h0
    simp only [ChainSlot.fill, print_statement_some, print_statement_switch,
      print_link_left_some, Option.bind_eq_bind, Option.bind_eq_some] at h0
    obtain ⟨l, hl, rest, hrest, _⟩ := h0
    obtain ⟨pre, post, hf⟩ := expr_slot_framed inner e0 l hl
    refine ⟨"Print Statement: (\n" ++ pre, post ++ rest ++ "\n)\n", fun e x hx => ?_⟩
    have hfe := hf e x hx
    simp only at hfe
    simp [ChainSlot.fill, print_statement_some, print_statement_switch,
      print_link_left_some, hfe, hrest, String.ext_iff, String.data_append]
  | later left next =>
    intro e0 out0 h0
    simp only [ChainSlot.fill, print_statement_some, print_statement_switch,
      print_chain_loop, Option.bind_eq_bind, Option.bind_eq_some] at h0
    obtain ⟨l, hl, rest, hrest, _⟩ := h0
    obtain ⟨pre, post, hf⟩ := chain_slot_framed next e0 rest hrest
    refine ⟨"Print Statement: (\n" ++ l ++ pre, post ++ "\n)\n", fun e x hx => ?_⟩
    have hfe := hf e x hx
    simp only at hfe
    simp [ChainSlot.fill, print_statement_some, print_statement_switch,
      print_chain_loop, hfe, hl, String.ext_iff, String.data_append]

theorem if_block_framed (ifBlockCount : Int) (g : Option Expression → Statement)
    (hg : ∀ (e0 : Option Expression) (out0 : String),
      print_statement (some (g e0)) = some out0 →
      Framed (fun e => print_statement (some (g e))))
    (after : List (Option Statement)) :
    ∀ (before : List (Option Statement)) (i : Nat) (e0 : Option Expression) (out0 : String),
      (i : Int) + (before.length : Int) < ifBlockCount →
      print_if_block ifBlockCount i (before ++ some (g e0) :: after) = some out0 →
      Framed (fun e => print_if_block ifBlockCount i (before ++ some (g e) :: after)) := by
  intro before
  induction before with
  | nil =>
    intro i e0 out0 hi h0
    have hi' : (i : Int) < ifBlockCount := by simpa using hi
    simp only [List.nil_append, print_if_block, hi', if_true, Option.bind_eq_bind,
      Option.bind_eq_some] at h0
    obtain ⟨r, hr, more, hmore, _⟩ := h0
    obtain ⟨pre, post, hf⟩ := hg e0 r hr
    refine ⟨"    Statement " ++ fmt_d ((i : Int) + 1) ++ ":\n" ++ pre, post ++ "\n" ++ more,
      fun e x hx => ?_⟩
    have hfe := hf e x hx
    simp only at hfe
    simp [print_if_block, hi', hfe, hmore, String.ext_iff, String.data_append]
  | cons b rest ih =>
    intro i e0 out0 hi h0
    have hi' : (i : Int) < ifBlockCount := by
      simp only [List.length_cons] at hi; omega
    have hnext : ((i + 1 : Nat) : Int) + (rest.length : Int) < ifBlockCount := by
      simp only [List.length_cons] at hi; omega
    simp only [List.cons_append, print_if_block, hi', if_true, Option.bind_eq_bind,
      Option.bind_eq_some] at h0
    obtain ⟨r, hr, more, hmore, _⟩ := h0
    obtain ⟨pre, post, hf⟩ := ih (i + 1) e0 more hnext hmore
    refine ⟨"    Statement " ++ fmt_d ((i : Int) + 1) ++ ":\n" ++ r ++ "\n" ++ pre, post,
      fun e x hx => ?_⟩
    have hfe := hf e x hx
    simp only at hfe
    simp [print_if_block, hi', hfe, hr, String.ext_iff, String.data_append]

theorem stmt_slot_framed (c : StmtSlot) :
    c.Visited → ∀ (e0 : Option Expression) (out0 : String),
      print_statement (some (c.fill e0)) = some out0 →
      Framed (fun e => print_statement (some (c.fill e))) := by
  induction c with
  | assignValue tok =>
    intro _ e0 out0 h0
    simp only [StmtSlot.fill, print_statement_some, print_statement_switch, fmt_s,
      Option.bind_eq_bind, Option.bind_eq_some] at h0
    obtain ⟨id, hid, _, _, _⟩ := h0
    refine ⟨"Assignment Statement: " ++ id ++ " = ", "", fun e x hx => ?_⟩
    simp [StmtSlot.fill, print_statement_some, print_statement_switch, fmt_s, hid, hx,
      String.ext_iff, String.data_append]
  | returnValue =>
    intro _ e0 out0 _
    refine ⟨"Return Statement: ", "", fun e x hx => ?_⟩
    simp [StmtSlot.fill, print_statement_some, print_statement_switch, hx,
      String.ext_iff, String.data_append]
  | expressionExpr =>
    intro _ e0 out0 _
    refine ⟨"Expression Statement: ", "\n", fun e x hx => ?_⟩
    simp [StmtSlot.fill, print_statement_some, print_statement_switch, hx,
      String.ext_iff, String.data_append]
  | ifCondition ifBlock ifBlockCount =>
    intro _ e0 out0 h0
    simp only [StmtSlot.fill, print_statement_some, print_statement_switch,
      Option.bind_eq_bind, Option.bind_eq_some] at h0
    obtain ⟨_, _, body, hbody, _⟩ := h0
    refine ⟨"If Statement:\n  Condition: ", "\n  If Block:\n" ++ body, fun e x hx => ?_⟩
    simp [StmtSlot.fill, print_statement_some, print_statement_switch, hbody, hx,
      String.ext_iff, String.data_append]
  | inLetValue identifier data_type inner =>
    intro _ e0 out0 h0
    simp only [StmtSlot.fill, print_statement_some, print_statement_switch, fmt_s,
      Option.bind_eq_bind, Option.bind_eq_some] at h0
    obtain ⟨id, hid, ty, hty, r, hr, _⟩ := h0
    obtain ⟨pre, post, hf⟩ := expr_slot_framed inner e0 r hr
    refine ⟨"Let Statement: " ++ id ++ "\n" ++ "Data type: " ++ ty ++ "\n" ++ "  Value: " ++ pre,
      post, fun e x hx => ?_⟩
    have hfe := hf e x hx
    simp only at hfe
    simp [StmtSlot.fill, print_statement_some, print_statement_switch, fmt_s, hid, hty, hfe,
      String.ext_iff, String.data_append]
  | inAssignValue tok inner =>
    intro _ e0 out0 h0
    simp only [StmtSlot.fill, print_statement_some, print_statement_switch, fmt_s,
      Option.bind_eq_bind, Option.bind_eq_some] at h0
    obtain ⟨id, hid, r, hr, _⟩ := h0
    obtain ⟨pre, post, hf⟩ := expr_slot_framed inner e0 r hr
    refine ⟨"Assignment Statement: " ++ id ++ " = " ++ pre, post, fun e x hx => ?_⟩
    have hfe := hf e x hx
    simp only at hfe
    simp [StmtSlot.fill, print_statement_some, print_statement_switch, fmt_s, hid, hfe,
      String.ext_iff, String.data_append]
  | inReturnValue inner =>
    intro _ e0 out0 h0
    simp only [StmtSlot.fill, print_statement_some, print_statement_switch,
      Option.bind_eq_bind, Option.bind_eq_some] at h0
    obtain ⟨r, hr, _⟩ := h0
    obtain ⟨pre, post, hf⟩ := expr_slot_framed inner e0 r hr
    refine ⟨"Return Statement: " ++ pre, post, fun e x hx => ?_⟩
    have hfe := hf e x hx
    simp only at hfe
    simp [StmtSlot.fill, print_statement_some, print_statement_switch, hfe,
      String.ext_iff, String.data_append]
  | inExpressionExpr inner =>
    intro _ e0 out0 h0
    simp only [StmtSlot.fill, print_statement_some, print_statement_switch,
      Option.bind_eq_bind, Option.bind_eq_some] at h0
    obtain ⟨r, hr, _⟩ := h0
    obtain ⟨pre, post, hf⟩ := expr_slot_framed inner e0 r hr
    refine ⟨"Expression Statement: " ++ pre, post ++ "\n", fun e x hx => ?_⟩
    have hfe := hf e x hx
    simp only at hfe
    simp [StmtSlot.fill, print_statement_some, print_statement_switch, hfe,
      String.ext_iff, String.data_append]
  | inIfCondition inner ifBlock ifBlockCount =>
    intro _ e0 out0 h0
    simp only [StmtSlot.fill, print_statement_some, print_statement_switch,
      Option.bind_eq_bind, Option.bind_eq_some] at h0
    obtain ⟨r, hr, body, hbody, _⟩ := h0
    obtain ⟨pre, post, hf⟩ := expr_slot_framed inner e0 r hr
    refine ⟨"If Statement:\n  Condition: " ++ pre, post ++ "\n  If Block:\n" ++ body,
      fun e x hx => ?_⟩
    have hfe := hf e x hx
    simp only at hfe
    simp [StmtSlot.fill, print_statement_some, print_statement_switch, hfe, hbody,
      String.ext_iff, String.data_append]
  | inIfBlock condition before inner after ifBlockCount ih =>
    intro hv e0 out0 h0
    simp only [StmtSlot.fill, print_statement_some, print_statement_switch,
      Option.bind_eq_bind, Option.bind_eq_some] at h0
    obtain ⟨cnd, hcnd, body, hbody, _⟩ := h0
    obtain ⟨pre, post, hf⟩ := if_block_framed ifBlockCount inner.fill (ih hv.2) after before 0
      e0 body (by simpa using hv.1) hbody
    refine ⟨"If Statement:\n  Condition: " ++ cnd ++ "\n  If Block:\n" ++ pre, post,
      fun e x hx => ?_⟩
    have hfe := hf e x hx
    simp only at hfe
    simp [StmtSlot.fill, print_statement_some, print_statement_switch, hfe, hcnd,
      String.ext_iff, String.data_append]
  | inPrint inner =>
    intro _ e0 out0 h0
    exact print_head_framed inner e0 out0 h0

/-- C4: take a tree (rooted at a statement, or at an expression) and in it, at
any depth, a slot for the Expression child of an Assignment, Return,
ExpressionStatement or If statement or of an Infix, Prefix or Postfix expression,
on the path the traversal takes. If the traversal completes with some child in
the slot, then there is a fixed text `pre` in front and a fixed text `post`
behind such that with any child `e` in the slot the output is `pre`, the
rendering of `e`, `post`; with the child absent the traversal completes as well,
and its output is `pre`, the line "NULL Expression\n", `post`. -/
theorem absent_child_marker (c : StmtSlot) (hv : c.Visited) (e0 : Option Expression)
    (out0 : String) (h0 : print_statement (some (c.fill e0)) = some out0) :
    (∃ pre post : String,
      (∀ (e : Option Expression) (r : String), print_expression e = some r →
        print_statement (some (c.fill e)) = some (pre ++ r ++ post)) ∧
      print_statement (some (c.fill none)) = some (pre ++ "NULL Expression\n" ++ post)) ∧
    (∀ (x : ExprSlot) (x0 : Option Expression) (xout : String),
      print_expression (some (x.fill x0)) = some xout →
      ∃ pre post : String,
        (∀ (e : Option Expression) (r : String), print_expression e = some r →
          print_expression (some (x.fill e)) = some (pre ++ r ++ post)) ∧
        print_expression (some (x.fill none)) = some (pre ++ "NULL Expression\n" ++ post)) := by
  constructor
  · obtain ⟨pre, post, hf⟩ := stmt_slot_framed c hv e0 out0 h0
    exact ⟨pre, post, hf, hf none _ rfl⟩
  · intro x x0 xout hx
    obtain ⟨pre, post, hf⟩ := expr_slot_framed x x0 xout hx
    exact ⟨pre, post, hf, hf none _ rfl⟩

theorem absent_child_marker_witness :
    print_statement (some ((StmtSlot.inIfBlock (some (.identifierExpr ⟨0, some "x", 1, 4⟩))
        [some (.returnStmt none)]
        (.inAssignValue ⟨0, some "y", 3, 3⟩ (.infixRight none ⟨1, some "+", 3, 9⟩))
        [] 2).fill (some (.integerLiteral ⟨2, some "1", 3, 11⟩)))) =
      some ("If Statement:\n  Condition: Identifier: x\n\n  If Block:\n" ++
        "    Statement 1:\nReturn Statement: NULL Expression\n\n" ++
        "    Statement 2:\nAssignment Statement: y = " ++
        "Infix Expression: (NULL Expression\n + Integer Literal: 1\n)\n") ∧
    ∃ pre post : String,
      (∀ (e : Option Expression) (r : String), print_expression e = some r →
        print_statement (some ((StmtSlot.inIfBlock
            (some (.identifierExpr ⟨0, some "x", 1, 4⟩)) [some (.returnStmt none)]
            (.inAssignValue ⟨0, some "y", 3, 3⟩ (.infixRight none ⟨1, some "+", 3, 9⟩))
            [] 2).fill e)) = some (pre ++ r ++ post)) ∧
      print_statement (some ((StmtSlot.inIfBlock
          (some (.identifierExpr ⟨0, some "x", 1, 4⟩)) [some (.returnStmt none)]
          (.inAssignValue ⟨0, some "y", 3, 3⟩ (.infixRight none ⟨1, some "+", 3, 9⟩))
          [] 2).fill none)) = some (pre ++ "NULL Expression\n" ++ post) :=
  ⟨rfl, (absent_child_marker
    (.inIfBlock (some (.identifierExpr ⟨0, some "x", 1, 4⟩)) [some (.returnStmt none)]
      (.inAssignValue ⟨0, some "y", 3, 3⟩ (.infixRight none ⟨1, some "+", 3, 9⟩)) [] 2)
    ⟨by decide, trivial⟩ (some (.integerLiteral ⟨2, some "1", 3, 11⟩)) _ rfl).1⟩

/-! ## The parser output -/

theorem print_program_loop_eq (stmtsCount : Int) :
    ∀ (stmts : List (Option Statement)) (rs : List String) (i : Nat),
      stmtsCount = (i : Int) + (stmts.length : Int) →
      List.Forall₂ (fun s r => print_statement s = some r) stmts rs →
      print_program_loop stmtsCount i stmts =
        some (String.join ((rs.enumFrom i).map (numbered_block ""))) := by
  intro stmts
  induction stmts with
  | nil =>
    intro rs i hcount h
    cases h
    have hi : ¬ ((i : Int) < stmtsCount) := by simp at hcount; omega
    simp [print_program_loop, hi, String.join]
  | cons s rest ih =>
    intro rs i hcount h
    cases h with
    | cons hs hrest =>
      have hi : (i : Int) < stmtsCount := by simp at hcount; omega
      have hnext : stmtsCount = ((i + 1 : Nat) : Int) + (rest.length : Int) := by
        simp at hcount ⊢; omega
      have hd : fmt_d ((i : Int) + 1) = toString (i + 1) := fmt_d_natCast (i + 1)
      simp [print_program_loop, hi, hs, ih _ (i + 1) hnext hrest, hd, numbered_block,
        String.ext_iff, String.data_append]

theorem loops_not_entered (count : Int) (i : Nat) (h : count ≤ (i : Int))
    (entries : List (Option Statement)) :
    print_if_block count i entries = some "" ∧ print_program_loop count i entries = some "" := by
  have hi : ¬ ((i : Int) < count) := by omega
  cases entries <;> simp [print_if_block, print_program_loop, hi]

/-- C11: for an absent Program (`parseProgram` returned `NULL`) the text after
the header "\nParser output:\n" is the one line
"Parse program function returned nothing - NULL\n": no statement count line, no
statement block, and `print_statement` is not called. -/
theorem absent_program_line :
    print_parser_output none =
      some ("\nParser output:\n" ++ "Parse program function returned nothing - NULL\n") := rfl

/-- C12: for a present Program whose statements `[s_1, ..., s_n]` (with
`stmtsCount = n`) render entry by entry as `rs`, the text after the header
"\nParser output:\n" is the line "Program statements' count n\n" followed by n
blocks in program order, block i (counted from 1) being "Statement i:\n", the
rendering of `s_i` by `print_statement` and "\n"; `rs` has one entry per
statement. -/
theorem program_render (stmts : List (Option Statement)) (rs : List String)
    (hrs : List.Forall₂ (fun s r => print_statement s = some r) stmts rs) :
    rs.length = stmts.length ∧
    print_parser_output (some ⟨stmts, stmts.length⟩) =
      some ("\nParser output:\n" ++
        "Program statements' count " ++ toString stmts.length ++ "\n" ++
        String.join (rs.enum.map fun ir =>
          "Statement " ++ toString (ir.1 + 1) ++ ":\n" ++ ir.2 ++ "\n")) := by
  refine ⟨hrs.length_eq.symm, ?_⟩
  have hloop := print_program_loop_eq (stmts.length : Int) stmts rs 0 (by simp) hrs
  have hfun : (fun ir : Nat × String =>
      "Statement " ++ toString (ir.1 + 1) ++ ":\n" ++ ir.2 ++ "\n") = numbered_block "" := by
    funext ir; simp [numbered_block, String.ext_iff, String.data_append]
  have hd : fmt_d (stmts.length : Int) = toString stmts.length := fmt_d_natCast _
  rw [hfun]
  simp [print_parser_output, hloop, hd, List.enum, String.ext_iff, String.data_append]

theorem program_render_witness :
    print_parser_output (some ⟨[some (.returnStmt none),
        some (.letStmt ⟨⟨0, some "x", 2, 5⟩⟩ ⟨3, some "int", 2, 1⟩ none)], 2⟩) =
      some ("\nParser output:\nProgram statements' count 2\n" ++
        "Statement 1:\nReturn Statement: NULL Expression\n\n" ++
        "Statement 2:\nLet Statement: x\nData type: int\n  Uninitialized\n\n") :=
  ((program_render [some (.returnStmt none),
      some (.letStmt ⟨⟨0, some "x", 2, 5⟩⟩ ⟨3, some "int", 2, 1⟩ none)]
    ["Return Statement: NULL Expression\n", "Let Statement: x\nData type: int\n  Uninitialized\n"]
    (.cons rfl (.cons rfl .nil))).2).trans rfl

/-- C17: for an If statement whose `ifBlockCount` is zero or negative the output
is "If Statement:\n  Condition: ", the rendering of the condition and
"\n  If Block:\n", whatever `ifBlock` holds: no body statement is visited and no
"Statement i:" prefix is written. For a present Program whose `stmtsCount` is
zero or negative the text after the header is the statement count line only. -/
theorem nonpositive_counts (count : Int) (hcount : count ≤ 0) :
    (∀ (condition : Option Expression) (ifBlock : List (Option Statement)),
      print_statement (some (.ifStmt condition ifBlock count)) =
        (print_expression condition).bind fun c =>
          some ("If Statement:\n  Condition: " ++ c ++ "\n  If Block:\n")) ∧
    (∀ (stmts : List (Option Statement)),
      print_parser_output (some ⟨stmts, count⟩) =
        some ("\nParser output:\n" ++ "Program statements' count " ++ fmt_d count ++ "\n")) := by
  have h0 : count ≤ ((0 : Nat) : Int) := by simpa using hcount
  constructor
  · intro condition ifBlock
    cases hc : print_expression condition <;>
      simp [print_statement, print_statement_switch, hc,
        (loops_not_entered count 0 h0 ifBlock).1, String.ext_iff, String.data_append]
  · intro stmts
    simp [print_parser_output, (loops_not_entered count 0 h0 stmts).2, String.ext_iff,
      String.data_append]

theorem nonpositive_counts_witness :
    print_statement (some (.ifStmt none [none, some (.returnStmt none)] (-2))) =
      some "If Statement:\n  Condition: NULL Expression\n\n  If Block:\n" ∧
    print_parser_output (some ⟨[none], -2⟩) =
      some "\nParser output:\nProgram statements' count -2\n" :=
  ⟨((nonpositive_counts (-2) (by decide)).1 none [none, some (.returnStmt none)]).trans rfl,
   ((nonpositive_counts (-2) (by decide)).2 [none]).trans rfl⟩

/-! ## The last character of a rendering -/

theorem data_getLast_append_singleton (s : String) (c : Char) :
    (s ++ String.singleton c).data.getLast? = some c := by
  have h : (String.singleton c).data = [c] := rfl
  simp [String.data_append, h]

theorem data_getLast_append (p s : String) (c : Char) (h : s.data.getLast? = some c) :
    (p ++ s).data.getLast? = some c := by
  simp [String.data_append, List.getLast?_append, h]

/-- C16: the output of `print_expression` for an Infix or a Prefix expression
ends with the character ')' (so not with a newline), whatever the children and
the operator literal; for an absent expression, an expression with an unknown
tag and a leaf (Identifier, IntegerLiteral, FloatLiteral, StringLiteral) it ends
with a newline. Hence the output of `print_statement` for a Let, Assignment or
Return statement whose value is an Infix or Prefix expression ends with ')' and
not with a newline. -/
theorem last_character (e : Expression) (out : String)
    (hkind : (∃ l op r, e = .infixExpr l op r) ∨ (∃ op r, e = .prefixExpr op r))
    (hout : print_expression (some e) = some out) :
    (out.data.getLast? = some ')' ∧ out.data.getLast? ≠ some '\n') ∧
    (∀ (leaf : Expression) (text : String),
      ((∃ t, leaf = .identifierExpr t) ∨ (∃ t, leaf = .integerLiteral t) ∨
        (∃ t, leaf = .floatingLiteral t) ∨ (∃ t, leaf = .stringLiteral t) ∨
        (∃ raw node, leaf = .unknownExpr raw node)) →
      print_expression (some leaf) = some text → text.data.getLast? = some '\n') ∧
    (∃ text, print_expression none = some text ∧ text.data.getLast? = some '\n') ∧
    (∀ (identifier : IdentifierExpression) (data_type identifier_token : Token) (s : Statement)
        (text : String),
      (s = .letStmt identifier data_type (some e) ∨ s = .assignStmt identifier_token (some e) ∨
        s = .returnStmt (some e)) →
      print_statement (some s) = some text →
      text.data.getLast? = some ')' ∧ text.data.getLast? ≠ some '\n') := by
  have hparen : out.data.getLast? = some ')' := by
    rcases hkind with ⟨l, op, r, rfl⟩ | ⟨op, r, rfl⟩
    · simp only [print_expression_some, print_expression_switch, fmt_s,
        Option.bind_eq_bind, Option.bind_eq_some] at hout
      obtain ⟨a, _, o, _, b, _, hout⟩ := hout
      simp only [Option.pure_def, Option.some.injEq] at hout
      subst hout
      exact data_getLast_append_singleton _ ')'
    · simp only [print_expression_some, print_expression_switch, fmt_s,
        Option.bind_eq_bind, Option.bind_eq_some] at hout
      obtain ⟨o, _, b, _, hout⟩ := hout
      simp only [Option.pure_def, Option.some.injEq] at hout
      subst hout
      exact data_getLast_append_singleton _ ')'
  refine ⟨⟨hparen, by rw [hparen]; decide⟩, ?_, ⟨_, rfl, by decide⟩, ?_⟩
  · intro leaf text hleaf htext
    rcases hleaf with ⟨t, rfl⟩ | ⟨t, rfl⟩ | ⟨t, rfl⟩ | ⟨t, rfl⟩ | ⟨raw, node, rfl⟩
    all_goals
      simp only [print_expression_some, print_expression_switch, fmt_s,
        Option.bind_eq_bind, Option.bind_eq_some, Option.pure_def, Option.some.injEq] at htext
    · obtain ⟨a, _, rfl⟩ := htext; exact data_getLast_append_singleton _ '\n'
    · obtain ⟨a, _, rfl⟩ := htext; exact data_getLast_append_singleton _ '\n'
    · obtain ⟨a, _, rfl⟩ := htext; exact data_getLast_append_singleton _ '\n'
    · obtain ⟨a, _, rfl⟩ := htext; exact data_getLast_append_singleton _ '\n'
    · subst htext; decide
  · intro identifier data_type identifier_token s text hs htext
    have hlast : text.data.getLast? = some ')' := by
      rcases hs with rfl | rfl | rfl
      · simp only [print_statement_some, print_statement_switch, fmt_s, hout,
          Option.bind_eq_bind, Option.bind_eq_some, Option.pure_def, Option.some.injEq] at htext
        obtain ⟨id, _, ty, _, r, hr, rfl⟩ := htext
        cases hr
        exact data_getLast_append _ _ _ hparen
      · simp only [print_statement_some, print_statement_switch, fmt_s, hout,
          Option.bind_eq_bind, Option.bind_eq_some, Option.pure_def, Option.some.injEq] at htext
        obtain ⟨id, _, r, hr, rfl⟩ := htext
        cases hr
        exact data_getLast_append _ _ _ hparen
      · simp only [print_statement_some, print_statement_switch, hout,
          Option.bind_eq_bind, Option.bind_eq_some, Option.pure_def, Option.some.injEq] at htext
        obtain ⟨r, hr, rfl⟩ := htext
        cases hr
        exact data_getLast_append _ _ _ hparen
    exact ⟨hlast, by rw [hlast]; decide⟩

theorem last_character_witness :
    ("Infix Expression: (NULL Expression\n + Identifier: b\n)".data.getLast? = some ')' ∧
      "Infix Expression: (NULL Expression\n + Identifier: b\n)".data.getLast? ≠ some '\n') :=
  (last_character (.infixExpr none ⟨1, some "+", 1, 3⟩ (some (.identifierExpr ⟨0, some "b", 1, 5⟩)))
    "Infix Expression: (NULL Expression\n + Identifier: b\n)"
    (Or.inl ⟨_, _, _, rfl⟩) rfl).1

/-! ## Leaves are told apart by their rendering -/

theorem leaf_render (k : LeafKind) (t : Token) (a : String) (h : t.literal = some a) :
    print_expression (some (k.node t)) =
      some ((match k with
        | .identifier => "Identifier: "
        | .integer => "Integer Literal: "
        | .floating => "Floating Literal: "
        | .string => "String literal: ") ++ a ++ "\n") := by
  cases k <;> simp [LeafKind.node, print_expression, print_expression_switch, fmt_s, h]

/-- C15: two leaf expressions (each an Identifier, IntegerLiteral, FloatLiteral
or StringLiteral with a present literal) that `print_expression` renders alike
have the same kind and the same literal text. -/
theorem leaf_render_injective (k1 k2 : LeafKind) (t1 t2 : Token) (a b : String)
    (h1 : t1.literal = some a) (h2 : t2.literal = some b)
    (heq : print_expression (some (k1.node t1)) = print_expression (some (k2.node t2))) :
    k1 = k2 ∧ a = b := by
  rw [leaf_render k1 t1 a h1, leaf_render k2 t2 b h2] at heq
  cases k1 <;> cases k2 <;>
    simp [String.ext_iff, String.data_append] at heq ⊢ <;>
    exact heq

theorem leaf_render_injective_witness :
    LeafKind.integer = LeafKind.integer ∧ "5" = "5" :=
  leaf_render_injective .integer .integer ⟨2, some "5", 1, 1⟩ ⟨2, some "5", 7, 3⟩ "5" "5"
    rfl rfl rfl

/-! ## The token dump -/

theorem print_tokens_loop_eq (typeName : Token → String) (tokensCount : Int) :
    ∀ (tokens : List Token) (i : Nat),
      tokensCount = (i : Int) + (tokens.length : Int) →
      print_tokens_loop (fun t => some (typeName t)) tokensCount i tokens =
        some (String.join ((tokens.enumFrom i).map (token_line typeName))) := by
  intro tokens
  induction tokens with
  | nil =>
    intro i hcount
    have hi : ¬ ((i : Int) < tokensCount) := by simp at hcount; omega
    simp [print_tokens_loop, hi, String.join]
  | cons tok rest ih =>
    intro i hcount
    have hi : (i : Int) < tokensCount := by simp at hcount; omega
    have hnext : tokensCount = ((i + 1 : Nat) : Int) + (rest.length : Int) := by
      simp at hcount ⊢; omega
    have hd : fmt_d (i : Int) = toString i := fmt_d_natCast i
    cases hlit : tok.literal with
    | none =>
      simp [print_tokens_loop, hi, hlit, ih (i + 1) hnext, hd, token_line,
        String.ext_iff, String.data_append]
    | some literal =>
      simp [print_tokens_loop, hi, hlit, ih (i + 1) hnext, fmt_d, fmt_s_left, token_line,
        left_justified, String.ext_iff, String.data_append]

theorem left_justified_size (width : Nat) (text : String) :
    (left_justified width text).utf8ByteSize = max width text.utf8ByteSize := by
  have hrep : ∀ k : Nat, String.utf8Len (List.replicate k ' ') = k := by
    intro k
    induction k with
    | zero => rfl
    | succ k ih =>
      rw [List.replicate_succ, String.utf8Len_cons, ih]
      rfl
  have happ : ∀ a b : String, (a ++ b).utf8ByteSize = a.utf8ByteSize + b.utf8ByteSize := by
    intro a b
    show String.utf8Len (a ++ b).data = String.utf8Len a.data + String.utf8Len b.data
    rw [String.data_append, String.utf8Len_append]
  have hpad : (String.mk (List.replicate (width - text.utf8ByteSize) ' ')).utf8ByteSize =
      width - text.utf8ByteSize := hrep _
  rw [left_justified, happ, hpad]
  omega

/-- C14: for a token sequence `t_0 .. t_{n-1}` (with `tokensCount = n`) the token
dump is a banner line of 50 dashes, one line per token in order, the same banner
line and the line "Ended lexer output". The line of token `i` is
"Token i has a NULL literal" (`i` counted from 0) when its literal is absent,
the literal and the type name not being written then; otherwise it holds the
type name left-justified in 30 columns, the literal left-justified in 20 columns,
the line number and the column number. A left-justified field is the text
followed by spaces, as wide as the field or as the text if that is wider. -/
theorem token_dump_render (typeName : Token → String) (tokens : List Token) :
    print_token_dump (fun t => some (typeName t)) tokens tokens.length =
      some ("--------------------------------------------------\n" ++
        String.join (tokens.enum.map fun it =>
          match it.2.literal with
          | none => "Token " ++ toString it.1 ++ " has a NULL literal\n"
          | some literal =>
              "Token Type: " ++ left_justified 30 (typeName it.2) ++ " | Literal: " ++
                left_justified 20 literal ++ " | Line : " ++ toString it.2.line_number ++
                "   Column : " ++ toString it.2.column_number ++ "\n") ++
        "--------------------------------------------------\n" ++
        "Ended lexer output\n") ∧
    "--------------------------------------------------".length = 50 ∧
    (tokens.enum.map (token_line typeName)).length = tokens.length ∧
    (∀ (width : Nat) (text : String),
      left_justified width text =
        text ++ String.mk (List.replicate (width - text.utf8ByteSize) ' ') ∧
      (left_justified width text).utf8ByteSize = max width text.utf8ByteSize) := by
  refine ⟨?_, by decide, by simp [List.enum], fun w t => ⟨rfl, left_justified_size w t⟩⟩
  have hloop := print_tokens_loop_eq typeName (tokens.length : Int) tokens 0 (by simp)
  have hdash : print_dashes 50 = "--------------------------------------------------" := by
    decide
  have hfun : (fun it : Nat × Token =>
      match it.2.literal with
      | none => "Token " ++ toString it.1 ++ " has a NULL literal\n"
      | some literal =>
          "Token Type: " ++ left_justified 30 (typeName it.2) ++ " | Literal: " ++
            left_justified 20 literal ++ " | Line : " ++ toString it.2.line_number ++
            "   Column : " ++ toString it.2.column_number ++ "\n") = token_line typeName := by
    funext it; rfl
  rw [hfun]
  simp [print_token_dump, hloop, hdash, List.enum, String.ext_iff, String.data_append]

/-! ## Recursion depth and nesting depth -/

mutual

theorem print_expression_switch_frames_le :
    ∀ e : Expression, print_expression_switch_frames e ≤ e.nesting + 1
  | .identifierExpr _ => by simp [print_expression_switch_frames, Expression.nesting]
  | .integerLiteral _ => by simp [print_expression_switch_frames, Expression.nesting]
  | .floatingLiteral _ => by simp [print_expression_switch_frames, Expression.nesting]
  | .stringLiteral _ => by simp [print_expression_switch_frames, Expression.nesting]
  | .infixExpr left _ right => by
      have hl := print_expression_frames_le left
      have hr := print_expression_frames_le right
      simp only [print_expression_switch_frames, Expression.nesting]
      omega
  | .prefixExpr _ right => by
      have hr := print_expression_frames_le right
      simp only [print_expression_switch_frames, Expression.nesting]
      omega
  | .postfixExpr left _ => by
      have hl := print_expression_frames_le left
      simp only [print_expression_switch_frames, Expression.nesting]
      omega
  | .unknownExpr _ _ => by simp [print_expression_switch_frames, Expression.nesting]
termination_by structural e => e

theorem print_expression_frames_le :
    ∀ e : Option Expression, print_expression_frames e ≤ expression_nesting e + 1
  | none => by simp [print_expression_frames, expression_nesting]
  | some expr => by
      have h := print_expression_switch_frames_le expr
      simp only [print_expression_frames, expression_nesting]
      omega
termination_by structural e => e

end

theorem print_link_left_frames_le (left : Option Expression) :
    print_link_left_frames left ≤ expression_nesting left + 1 := by
  cases left with
  | none => simp [print_link_left_frames]
  | some e => exact print_expression_frames_le (some e)

mutual

theorem print_chain_link_frames_le :
    ∀ p : PrintStatement, print_chain_link_frames p ≤ p.nesting + 1
  | .mk left right => by
      have hl := print_link_left_frames_le left
      have hr := print_chain_loop_frames_le right
      simp only [print_chain_link_frames, PrintStatement.nesting]
      omega
termination_by structural p => p

theorem print_chain_loop_frames_le :
    ∀ p : Option PrintStatement, print_chain_loop_frames p ≤ chain_nesting p + 1
  | none => by simp [print_chain_loop_frames]
  | some p => by
      have h := print_chain_link_frames_le p
      simp only [print_chain_loop_frames, chain_nesting]
      omega
termination_by structural p => p

end

mutual

theorem print_statement_switch_frames_le :
    ∀ s : Statement, print_statement_switch_frames s ≤ s.nesting + 1
  | .letStmt _ _ (some v) => by
      have h := print_expression_frames_le (some v)
      simp only [print_statement_switch_frames, Statement.nesting]
      omega
  | .letStmt _ _ none => by simp [print_statement_switch_frames, Statement.nesting]
  | .assignStmt _ value => by
      have h := print_expression_frames_le value
      simp only [print_statement_switch_frames, Statement.nesting]
      omega
  | .returnStmt value => by
      have h := print_expression_frames_le value
      simp only [print_statement_switch_frames, Statement.nesting]
      omega
  | .expressionStmt value => by
      have h := print_expression_frames_le value
      simp only [print_statement_switch_frames, Statement.nesting]
      omega
  | .ifStmt condition ifBlock ifBlockCount => by
      have hc := print_expression_frames_le condition
      have hb := print_if_block_frames_le ifBlockCount ifBlock 0
      simp only [print_statement_switch_frames, Statement.nesting]
      omega
  | .printStmt (.mk left right) => by
      have hl := print_link_left_frames_le left
      have hr := print_chain_loop_frames_le right
      simp only [print_statement_switch_frames, Statement.nesting, PrintStatement.nesting]
      omega
  | .unknownStmt _ _ => by simp [print_statement_switch_frames, Statement.nesting]
termination_by structural s => s

theorem print_statement_frames_le :
    ∀ s : Option Statement, print_statement_frames s ≤ statement_nesting s + 1
  | none => by simp [print_statement_frames]
  | some stmt => by
      have h := print_statement_switch_frames_le stmt
      simp only [print_statement_frames, statement_nesting]
      omega
termination_by structural s => s

theorem print_if_block_frames_le (ifBlockCount : Int) :
    ∀ (l : List (Option Statement)) (i : Nat),
      print_if_block_frames ifBlockCount i l ≤ block_nesting l + 1
  | [], _ => by simp [print_if_block_frames]
  | s :: rest, i => by
      have hs := print_statement_frames_le s
      have hr := print_if_block_frames_le ifBlockCount rest (i + 1)
      simp only [print_if_block_frames, block_nesting]
      split <;> omega
termination_by structural l => l

end

theorem print_program_loop_frames_le (stmtsCount : Int) :
    ∀ (l : List (Option Statement)) (i : Nat),
      print_program_loop_frames stmtsCount i l ≤ block_nesting l + 1 := by
  intro l
  induction l with
  | nil => intro i; simp [print_program_loop_frames]
  | cons s rest ih =>
    intro i
    have hs := print_statement_frames_le s
    have hr := ih (i + 1)
    simp only [print_program_loop_frames, block_nesting]
    split <;> omega

mutual

theorem print_chain_link_frames_eq :
    ∀ p : PrintStatement,
      print_chain_link_frames p = (p.lefts.map print_link_left_frames).foldr max 0
  | .mk left right => by
      have hr := print_chain_loop_frames_eq right
      simp only [print_chain_link_frames, PrintStatement.lefts, List.map_cons, List.foldr_cons, hr]
termination_by structural p => p

theorem print_chain_loop_frames_eq :
    ∀ p : Option PrintStatement,
      print_chain_loop_frames p = ((chain_lefts p).map print_link_left_frames).foldr max 0
  | none => by simp [print_chain_loop_frames, chain_lefts]
  | some p => by
      have h := print_chain_link_frames_eq p
      simp only [print_chain_loop_frames, chain_lefts, h]
termination_by structural p => p

end

theorem foldr_max_le (k : Nat) :
    ∀ l : List Nat, (∀ n ∈ l, n ≤ k) → l.foldr max 0 ≤ k := by
  intro l
  induction l with
  | nil => intro _; simp
  | cons n rest ih =>
    intro h
    have hn := h n (by simp)
    have hrest := ih (fun m hm => h m (by simp [hm]))
    simp only [List.foldr_cons]
    omega

mutual

theorem print_expression_switch_returns :
    ∀ e : Expression, e.printable → ∃ out, print_expression_switch e = some out
  | .identifierExpr t => fun h => by
      obtain ⟨a, ha⟩ := Option.ne_none_iff_exists'.mp h
      simp [print_expression_switch, fmt_s, ha]
  | .integerLiteral t => fun h => by
      obtain ⟨a, ha⟩ := Option.ne_none_iff_exists'.mp h
      simp [print_expression_switch, fmt_s, ha]
  | .floatingLiteral t => fun h => by
      obtain ⟨a, ha⟩ := Option.ne_none_iff_exists'.mp h
      simp [print_expression_switch, fmt_s, ha]
  | .stringLiteral t => fun h => by
      obtain ⟨a, ha⟩ := Option.ne_none_iff_exists'.mp h
      simp [print_expression_switch, fmt_s, ha]
  | .infixExpr left op right => fun h => by
      simp only [Expression.printable] at h
      obtain ⟨l, hl⟩ := print_expression_returns left h.1
      obtain ⟨o, ho⟩ := Option.ne_none_iff_exists'.mp h.2.1
      obtain ⟨r, hr⟩ := print_expression_returns right h.2.2
      simp [print_expression_switch, fmt_s, hl, ho, hr]
  | .prefixExpr op right => fun h => by
      simp only [Expression.printable] at h
      obtain ⟨o, ho⟩ := Option.ne_none_iff_exists'.mp h.1
      obtain ⟨r, hr⟩ := print_expression_returns right h.2
      simp [print_expression_switch, fmt_s, ho, hr]
  | .postfixExpr left op => fun h => by
      simp only [Expression.printable] at h
      obtain ⟨l, hl⟩ := print_expression_returns left h.1
      obtain ⟨o, ho⟩ := Option.ne_none_iff_exists'.mp h.2
      simp [print_expression_switch, fmt_s, hl, ho]
  | .unknownExpr _ _ => fun _ => ⟨_, rfl⟩
termination_by structural e => e

theorem print_expression_returns :
    ∀ e : Option Expression, expression_printable e → ∃ out, print_expression e = some out
  | none => fun _ => ⟨_, rfl⟩
  | some expr => fun h => by
      simp only [expression_printable] at h
      obtain ⟨out, hout⟩ := print_expression_switch_returns expr h
      exact ⟨out, by simp [print_expression, hout]⟩
termination_by structural e => e

end

theorem print_link_left_returns (left : Option Expression) (h : expression_printable left) :
    ∃ out, print_link_left left = some out := by
  cases left with
  | none => exact ⟨_, rfl⟩
  | some e => exact print_expression_returns (some e) h

mutual

theorem print_chain_link_returns :
    ∀ p : PrintStatement, p.printable → ∃ out, print_chain_link p = some out
  | .mk left right => fun h => by
      simp only [PrintStatement.printable] at h
      obtain ⟨l, hl⟩ := print_link_left_returns left h.1
      obtain ⟨r, hr⟩ := print_chain_loop_returns right h.2
      simp [print_chain_link, hl, hr]
termination_by structural p => p

theorem print_chain_loop_returns :
    ∀ p : Option PrintStatement, chain_printable p → ∃ out, print_chain_loop p = some out
  | none => fun _ => ⟨_, rfl⟩
  | some p => fun h => by
      simp only [chain_printable] at h
      obtain ⟨out, hout⟩ := print_chain_link_returns p h
      exact ⟨out, by simp [print_chain_loop, hout]⟩
termination_by structural p => p

end

mutual

theorem print_statement_switch_returns :
    ∀ s : Statement, s.printable → ∃ out, print_statement_switch s = some out
  | .letStmt identifier data_type (some v) => fun h => by
      simp only [Statement.printable] at h
      obtain ⟨id, hid⟩ := Option.ne_none_iff_exists'.mp h.1
      obtain ⟨ty, hty⟩ := Option.ne_none_iff_exists'.mp h.2.1
      obtain ⟨r, hr⟩ := print_expression_returns (some v) h.2.2
      simp [print_statement_switch, fmt_s, hid, hty, hr]
  | .letStmt identifier data_type none => fun h => by
      simp only [Statement.printable] at h
      obtain ⟨id, hid⟩ := Option.ne_none_iff_exists'.mp h.1
      obtain ⟨ty, hty⟩ := Option.ne_none_iff_exists'.mp h.2.1
      simp [print_statement_switch, fmt_s, hid, hty]
  | .assignStmt identifier_token value => fun h => by
      simp only [Statement.printable] at h
      obtain ⟨id, hid⟩ := Option.ne_none_iff_exists'.mp h.1
      obtain ⟨r, hr⟩ := print_expression_returns value h.2
      simp [print_statement_switch, fmt_s, hid, hr]
  | .returnStmt value => fun h => by
      simp only [Statement.printable] at h
      obtain ⟨r, hr⟩ := print_expression_returns value h
      simp [print_statement_switch, hr]
  | .expressionStmt value => fun h => by
      simp only [Statement.printable] at h
      obtain ⟨r, hr⟩ := print_expression_returns value h
      simp [print_statement_switch, hr]
  | .ifStmt condition ifBlock ifBlockCount => fun h => by
      simp only [Statement.printable] at h
      obtain ⟨c, hc⟩ := print_expression_returns condition h.1
      obtain ⟨b, hb⟩ := print_if_block_returns ifBlockCount ifBlock 0 h.2
      simp [print_statement_switch, hc, hb]
  | .printStmt (.mk left right) => fun h => by
      simp only [Statement.printable, PrintStatement.printable] at h
      obtain ⟨l, hl⟩ := print_link_left_returns left h.1
      obtain ⟨r, hr⟩ := print_chain_loop_returns right h.2
      simp [print_statement_switch, hl, hr]
  | .unknownStmt _ _ => fun _ => ⟨_, rfl⟩
termination_by structural s => s

theorem print_statement_returns :
    ∀ s : Option Statement, statement_printable s → ∃ out, print_statement s = some out
  | none => fun h => by simp [statement_printable] at h
  | some stmt => fun h => by
      simp only [statement_printable] at h
      obtain ⟨out, hout⟩ := print_statement_switch_returns stmt h
      exact ⟨out, by simp [print_statement, hout]⟩
termination_by structural s => s

theorem print_if_block_returns (ifBlockCount : Int) :
    ∀ (l : List (Option Statement)) (i : Nat), block_printable ifBlockCount i l →
      ∃ out, print_if_block ifBlockCount i l = some out
  | [], i => fun h => by
      simp only [block_printable] at h
      have hi : ¬ ((i : Int) < ifBlockCount) := by omega
      simp [print_if_block, hi]
  | s :: rest, i => fun h => by
      simp only [block_printable] at h
      by_cases hi : (i : Int) < ifBlockCount
      · obtain ⟨r, hr⟩ := print_statement_returns s (h hi).1
        obtain ⟨m, hm⟩ := print_if_block_returns ifBlockCount rest (i + 1) (h hi).2
        simp [print_if_block, hi, hr, hm]
      · simp [print_if_block, hi]
termination_by structural l => l

end

theorem print_program_loop_returns (stmtsCount : Int) :
    ∀ (l : List (Option Statement)) (i : Nat), block_printable stmtsCount i l →
      ∃ out, print_program_loop stmtsCount i l = some out := by
  intro l
  induction l with
  | nil =>
    intro i h
    simp only [block_printable] at h
    have hi : ¬ ((i : Int) < stmtsCount) := by omega
    simp [print_program_loop, hi]
  | cons s rest ih =>
    intro i h
    simp only [block_printable] at h
    by_cases hi : (i : Int) < stmtsCount
    · obtain ⟨r, hr⟩ := print_statement_returns s (h hi).1
      obtain ⟨m, hm⟩ := ih (i + 1) (h hi).2
      simp [print_program_loop, hi, hr, hm]
    · simp [print_program_loop, hi]

/-- C13: the printers are defined by recursion on the tree, each recursive call
being on a child of the node at hand, so every call on a (finite, acyclic) tree
ends; when no step is undefined (`block_printable`) the traversal of the Program
returns its text. The number of printer calls active at the same time never
exceeds the nesting depth of the Program tree; for a statement or an expression
taken alone it exceeds the nesting depth by at most the one call made on an
absent child. For a Print statement that number is one more than the largest such
number among the `left` expressions of its links, whatever the length of the
chain: the chain is walked by the loop. -/
theorem recursion_depth_bounded (program : Program) :
    (block_printable program.stmtsCount 0 program.stmts →
      ∃ out, print_parser_output (some program) = some out) ∧
    print_parser_output_frames (some program) ≤ program.nesting ∧
    (∀ s : Option Statement, print_statement_frames s ≤ statement_nesting s + 1) ∧
    (∀ e : Option Expression, print_expression_frames e ≤ expression_nesting e + 1) ∧
    (∀ p : PrintStatement,
      print_statement_frames (some (.printStmt p)) =
        1 + (p.lefts.map print_link_left_frames).foldr max 0) ∧
    (∀ (p : PrintStatement) (k : Nat),
      (∀ left ∈ p.lefts, print_link_left_frames left ≤ k) →
      print_statement_frames (some (.printStmt p)) ≤ 1 + k) := by
  have hchain : ∀ p : PrintStatement,
      print_statement_frames (some (.printStmt p)) =
        1 + (p.lefts.map print_link_left_frames).foldr max 0 := by
    intro p
    cases p with
    | mk left right =>
      simp only [print_statement_frames, print_statement_switch_frames, PrintStatement.lefts,
        List.map_cons, List.foldr_cons, print_chain_loop_frames_eq right]
  refine ⟨?_, ?_, print_statement_frames_le, print_expression_frames_le, hchain, ?_⟩
  · intro hp
    obtain ⟨body, hbody⟩ := print_program_loop_returns program.stmtsCount program.stmts 0 hp
    simp [print_parser_output, hbody]
  · have h := print_program_loop_frames_le program.stmtsCount program.stmts 0
    simp only [print_parser_output_frames, Program.nesting]
    omega
  · intro p k hk
    rw [hchain p]
    have h := foldr_max_le k (p.lefts.map print_link_left_frames) (by
      intro n hn
      obtain ⟨left, hleft, rfl⟩ := List.mem_map.mp hn
      exact hk left hleft)
    omega

theorem recursion_depth_bounded_witness :
    (∃ out, print_parser_output (some ⟨[some (.printStmt (.mk (some (.identifierExpr
        ⟨0, some "a", 1, 7⟩)) (some (.mk none (some (.mk (some (.integerLiteral
        ⟨2, some "3", 1, 13⟩)) none))))))], 1⟩) = some out) ∧
    print_parser_output_frames (some ⟨[some (.printStmt (.mk (some (.identifierExpr
        ⟨0, some "a", 1, 7⟩)) (some (.mk none (some (.mk (some (.integerLiteral
        ⟨2, some "3", 1, 13⟩)) none))))))], 1⟩) ≤ 3 :=
  ⟨(recursion_depth_bounded ⟨[some (.printStmt (.mk (some (.identifierExpr
        ⟨0, some "a", 1, 7⟩)) (some (.mk none (some (.mk (some (.integerLiteral
        ⟨2, some "3", 1, 13⟩)) none))))))], 1⟩).1
      (by simp [block_printable, statement_printable, Statement.printable,
        PrintStatement.printable, chain_printable, expression_printable, Expression.printable]),
   (recursion_depth_bounded ⟨[some (.printStmt (.mk (some (.identifierExpr
        ⟨0, some "a", 1, 7⟩)) (some (.mk none (some (.mk (some (.integerLiteral
        ⟨2, some "3", 1, 13⟩)) none))))))], 1⟩).2.1.trans (by decide)⟩

end Helium
